import Mathlib

/-!
# gogal: galaxy-galaxy lensing pair scan

A shallow embedding of `gogal.go` and the properties of its pair scan, of its
catalogue ingestion and of the scheduling of the scan.

The program computes with Go `float64`.  Its code is embedded once, over any
carrier `F` that provides the operations the program uses (`FloatOps F`), so the
embedded functions are ordinary computable definitions that follow the Go text
line by line.

The theorems about the arithmetic of the pair scan are stated for every carrier
`F`, Go `float64` with its rounding among them.  Where such a theorem rests on a
fact of IEEE 754 arithmetic (how the comparisons treat `NaN`, `1.*x = x`,
`Cos(0) = 1`, ...), the fact is a hypothesis of the theorem, stated with the
operations of `FloatOps`.

The carrier `F64` serves the examples: the real numbers with exact arithmetic,
together with the three special values of IEEE 754 (`NaN`, `+Inf`, `-Inf`) and
their rules.  Rounding, overflow of finite values and the sign of zero are not
part of `F64`; it agrees with `float64` on the special values and wherever
`float64` computes exactly.  The theorems stated for `F64` concern copied
values, parsing and scheduling; the arithmetic of their examples is exact in
`float64` as well.
-/

namespace Gogal

/-! ## The float64 operations used by the program -/

/-- The operations of Go `float64` that `gogal.go` uses: the arithmetic
operators, conversion of a decimal constant of the source text, `math.Sqrt`,
`math.Cos`, `math.Sin`, `math.Atan2`, and the comparisons `<=` and `<`. -/
class FloatOps (F : Type) extends Add F, Sub F, Mul F, Div F, Neg F where
  /-- A decimal constant of the program text, such as `37.0` or `0.186`. -/
  lit : ℚ → F
  /-- Go `math.Sqrt`. -/
  sqrt : F → F
  /-- Go `math.Cos`. -/
  cos : F → F
  /-- Go `math.Sin`. -/
  sin : F → F
  /-- Go `math.Atan2(y, x)`. -/
  atan2 : F → F → F
  /-- Go `a <= b`. -/
  le : F → F → Bool
  /-- Go `a < b`. -/
  lt : F → F → Bool

namespace FloatOps

variable {F : Type} [FloatOps F]

/-- Go `a >= b`, which IEEE 754 defines as `b <= a`. -/
def ge (a b : F) : Bool := le b a

/-- Go `a > b`, which IEEE 754 defines as `b < a`. -/
def gt (a b : F) : Bool := lt b a

end FloatOps

open FloatOps

/-! ## Data model (gogal.go lines 13-64) -/

/-- Go `Measurement`. -/
structure Measurement (F : Type) where
  Value : F
  SDev : F

/-- Go `Shear`. -/
structure Shear (F : Type) where
  One : Measurement F
  Two : Measurement F
  EMode : Measurement F
  BMode : Measurement F

/-- Go `FlexionF`. -/
structure FlexionF (F : Type) where
  One : Measurement F
  Two : Measurement F
  EMode : Measurement F
  BMode : Measurement F

/-- Go `FlexionG`. -/
structure FlexionG (F : Type) where
  One : Measurement F
  Two : Measurement F
  EMode : Measurement F
  BMode : Measurement F

/-- Go `Lens`. -/
structure Lens (F : Type) where
  ID : Int
  X : F
  Y : F

/-- Go `Source`. -/
structure Source (F : Type) where
  ID : Int
  X : F
  Y : F
  Shear : Shear F
  FlexionF : FlexionF F
  FlexionG : FlexionG F

/-- Go `GalGalData`. -/
structure GalGalData (F : Type) where
  Lens : Lens F
  Source : Source F
  DeltaTh : F
  DeltaX : F
  DeltaY : F
  Phi : F
  Shear : Shear F
  FlexionF : FlexionF F
  FlexionG : FlexionG F

section Program

variable {F : Type} [FloatOps F]

/-- The zero value `Measurement{}`. -/
def Measurement.zero : Measurement F := ⟨lit 0, lit 0⟩

/-! ## The pair scan (gogal.go lines 102-133) -/

/-- Line 111: `deltaX := source.X - lens.X`. -/
def deltaX (lens : Lens F) (source : Source F) : F := source.X - lens.X

/-- Line 112: `deltaY := source.Y - lens.Y`. -/
def deltaY (lens : Lens F) (source : Source F) : F := source.Y - lens.Y

/-- Line 113: `deltaTh := math.Sqrt(deltaX*deltaX + deltaY*deltaY)`, the
separation of the pair. -/
def deltaTh (lens : Lens F) (source : Source F) : F :=
  sqrt (deltaX lens source * deltaX lens source + deltaY lens source * deltaY lens source)

/-- Line 118: `-math.Cos(2.*phi)*One - math.Sin(2.*phi)*Two`. -/
def seVal (phi one two : F) : F := -cos (lit 2 * phi) * one - sin (lit 2 * phi) * two

/-- Line 119: `-math.Sin(2.*phi)*One + math.Cos(2.*phi)*Two`. -/
def sbVal (phi one two : F) : F := -sin (lit 2 * phi) * one + cos (lit 2 * phi) * two

/-- Line 120: `-math.Cos(1.*phi)*One - math.Sin(1.*phi)*Two`. -/
def feVal (phi one two : F) : F := -cos (lit 1 * phi) * one - sin (lit 1 * phi) * two

/-- Line 121: `-math.Sin(1.*phi)*One + math.Cos(1.*phi)*Two`. -/
def fbVal (phi one two : F) : F := -sin (lit 1 * phi) * one + cos (lit 1 * phi) * two

/-- Line 122: `-math.Cos(3.*phi)*One - math.Sin(3.*phi)*Two`. -/
def geVal (phi one two : F) : F := -cos (lit 3 * phi) * one - sin (lit 3 * phi) * two

/-- Line 123: `-math.Sin(3.*phi)*One - math.Cos(3.*phi)*Two`. -/
def gbVal (phi one two : F) : F := -sin (lit 3 * phi) * one - cos (lit 3 * phi) * two

/-- The body of the inner loop of `main` (lines 107-131) for one lens and one
source: `none` when the `continue` of line 115 is taken, otherwise the value
sent on `printChan` at line 131.  The debugging prints of lines 107-110 write
to standard output only and are left out. -/
def scanPair (lens : Lens F) (source : Source F) : Option (GalGalData F) :=
  let dX := deltaX lens source
  let dY := deltaY lens source
  let dTh := deltaTh lens source
  if ge dTh (lit 54838) || le dTh (lit 37) then
    none
  else
    let phi := atan2 dY dX
    let seV := seVal phi source.Shear.One.Value source.Shear.Two.Value
    let sbV := sbVal phi source.Shear.One.Value source.Shear.Two.Value
    let feV := feVal phi source.FlexionF.One.Value source.FlexionF.Two.Value
    let fbV := fbVal phi source.FlexionF.One.Value source.FlexionF.Two.Value
    let geV := geVal phi source.FlexionG.One.Value source.FlexionG.Two.Value
    let gbV := gbVal phi source.FlexionG.One.Value source.FlexionG.Two.Value
    let feV := feV / lit 0.186
    let fbV := fbV / lit 0.186
    let geV := geV / lit 0.186
    let gbV := gbV / lit 0.186
    let se : Shear F :=
      { One := Measurement.zero, Two := Measurement.zero,
        EMode := ⟨seV, source.Shear.One.SDev⟩, BMode := ⟨sbV, source.Shear.Two.SDev⟩ }
    let fe : FlexionF F :=
      { One := Measurement.zero, Two := Measurement.zero,
        EMode := ⟨feV, source.FlexionF.One.SDev⟩, BMode := ⟨fbV, source.FlexionF.Two.SDev⟩ }
    let ge : FlexionG F :=
      { One := Measurement.zero, Two := Measurement.zero,
        EMode := ⟨geV, source.FlexionG.One.SDev⟩, BMode := ⟨gbV, source.FlexionG.Two.SDev⟩ }
    some { Lens := lens, Source := source, DeltaTh := dTh, DeltaX := dX, DeltaY := dY,
           Phi := phi, Shear := se, FlexionF := fe, FlexionG := ge }

/-- The goroutine started for one lens (lines 104-133): the values it sends on
`printChan`, in the order it sends them. -/
def lensTask (sources : List (Source F)) (lens : Lens F) : List (GalGalData F) :=
  sources.filterMap (scanPair lens)

end Program

/-! ## Catalogue ingestion (gogal.go lines 76-97 and 144-234)

`strconv.ParseFloat` and `strconv.Atoi` are parameters of the embedding:
`parseFloat tok` is `none` when `strconv.ParseFloat(tok, 64)` returns an error
and the parsed value otherwise; `atoi tok` is the integer `strconv.Atoi(tok)`
returns (its error is discarded by the program).  A run-time panic (index out
of range) is the outer `none` of the results below.  Writes to standard output
(warnings, debugging lines) are not part of the modelled state. -/

section Ingestion

variable {F : Type} [FloatOps F]

/-- Go `unicode.IsSpace`. -/
def isSpace (c : Char) : Bool :=
  (0x09 ≤ c.toNat && c.toNat ≤ 0x0d) || c.toNat = 0x20 || c.toNat = 0x85 || c.toNat = 0xa0 ||
  c.toNat = 0x1680 || (0x2000 ≤ c.toNat && c.toNat ≤ 0x200a) || c.toNat = 0x2028 ||
  c.toNat = 0x2029 || c.toNat = 0x202f || c.toNat = 0x205f || c.toNat = 0x3000

/-- The loop of Go `strings.Fields`: `cur` holds the characters of the field
being read, last one first. -/
def fieldsAux : List Char → List Char → List String
  | [], cur => if cur.isEmpty then [] else [String.mk cur.reverse]
  | c :: cs, cur =>
    if isSpace c then
      if cur.isEmpty then fieldsAux cs [] else String.mk cur.reverse :: fieldsAux cs []
    else fieldsAux cs (c :: cur)

/-- Go `strings.Fields`: the maximal runs of non-space characters of `s`. -/
def fields (s : String) : List String := fieldsAux s.data []

/-- Go `strings.HasPrefix(s, p)`. -/
def hasPrefix (s p : String) : Bool := p.data.isPrefixOf s.data

/-- Go `fields[i]` for an `int` index: `none` is the panic of an index out of
range. -/
def index (fs : List String) (i : Int) : Option String :=
  if i < 0 then none else fs[i.toNat]?

/-- Go `getMeasurement` (lines 162-178).  The outer `none` is a panic, the
inner `error` the returned `error` value. -/
def getMeasurement (parseFloat : String → Option F) (fs : List String) (name : String)
    (valPos errPos : Int) : Option (Except String (Measurement F)) :=
  match index fs valPos with
  | none => none
  | some tok =>
    match parseFloat tok with
    | none =>
      match index fs 0 with
      | none => none
      | some id =>
        some (.error ("object " ++ id ++ ": could not parse `" ++ tok ++ "` as " ++ name))
    | some value =>
      if errPos > 0 then
        match index fs errPos with
        | none => none
        | some etok =>
          match parseFloat etok with
          | none =>
            match index fs 0 with
            | none => none
            | some id =>
              some (.error ("object " ++ id ++ ": could not parse `" ++ etok ++ "` as "
                ++ name ++ " error"))
          | some sDev => some (.ok ⟨value, sDev⟩)
      else
        some (.ok ⟨value, lit 0⟩)

/-- Go `getPosition` (lines 180-192). -/
def getPosition (parseFloat : String → Option F) (fs : List String) : Option (F × F) :=
  match getMeasurement parseFloat fs "x position" 1 (-1) with
  | none => none
  | some (.error _) => some (lit 0, lit 0)
  | some (.ok x) =>
    match getMeasurement parseFloat fs "y position" 2 (-1) with
    | none => none
    | some (.error _) => some (lit 0, lit 0)
    | some (.ok y) => some (x.Value, y.Value)

/-- The zero value `Shear{}`. -/
def Shear.zero : Shear F :=
  ⟨Measurement.zero, Measurement.zero, Measurement.zero, Measurement.zero⟩

/-- The zero value `FlexionF{}`. -/
def FlexionF.zero : FlexionF F :=
  ⟨Measurement.zero, Measurement.zero, Measurement.zero, Measurement.zero⟩

/-- The zero value `FlexionG{}`. -/
def FlexionG.zero : FlexionG F :=
  ⟨Measurement.zero, Measurement.zero, Measurement.zero, Measurement.zero⟩

/-- Go `getShear` (lines 194-206). -/
def getShear (parseFloat : String → Option F) (fs : List String) : Option (Shear F) :=
  match getMeasurement parseFloat fs "shear 1" 13 14 with
  | none => none
  | some (.error _) => some Shear.zero
  | some (.ok s1) =>
    match getMeasurement parseFloat fs "shear 2" 15 16 with
    | none => none
    | some (.error _) => some Shear.zero
    | some (.ok s2) => some { One := s1, Two := s2, EMode := Measurement.zero,
                              BMode := Measurement.zero }

/-- Go `getFlexionF` (lines 208-220). -/
def getFlexionF (parseFloat : String → Option F) (fs : List String) : Option (FlexionF F) :=
  match getMeasurement parseFloat fs "flexion F 1" 17 18 with
  | none => none
  | some (.error _) => some FlexionF.zero
  | some (.ok f1) =>
    match getMeasurement parseFloat fs "Flexion F 2" 19 20 with
    | none => none
    | some (.error _) => some FlexionF.zero
    | some (.ok f2) => some { One := f1, Two := f2, EMode := Measurement.zero,
                              BMode := Measurement.zero }

/-- Go `getFlexionG` (lines 222-234). -/
def getFlexionG (parseFloat : String → Option F) (fs : List String) : Option (FlexionG F) :=
  match getMeasurement parseFloat fs "flexion G 1" 21 22 with
  | none => none
  | some (.error _) => some FlexionG.zero
  | some (.ok g1) =>
    match getMeasurement parseFloat fs "Flexion G 2" 23 24 with
    | none => none
    | some (.error _) => some FlexionG.zero
    | some (.ok g2) => some { One := g1, Two := g2, EMode := Measurement.zero,
                              BMode := Measurement.zero }

/-- Go `getLensData` (lines 144-151). -/
def getLensData (parseFloat : String → Option F) (atoi : String → Int) (fs : List String) :
    Option (Lens F) :=
  match getPosition parseFloat fs with
  | none => none
  | some (x, y) =>
    match index fs 0 with
    | none => none
    | some tok => some { ID := atoi tok, X := x, Y := y }

/-- Go `getSourceData` (lines 153-160). -/
def getSourceData (parseFloat : String → Option F) (atoi : String → Int) (fs : List String) :
    Option (Source F) :=
  match index fs 0 with
  | none => none
  | some tok =>
    match getPosition parseFloat fs with
    | none => none
    | some (x, y) =>
      match getShear parseFloat fs with
      | none => none
      | some shear =>
        match getFlexionF parseFloat fs with
        | none => none
        | some flexionF =>
          match getFlexionG parseFloat fs with
          | none => none
          | some flexionG =>
            some { ID := atoi tok, X := x, Y := y, Shear := shear, FlexionF := flexionF,
                   FlexionG := flexionG }

/-- The two slices `lenses` and `sources` of `main`. -/
structure Catalog (F : Type) where
  lenses : List (Lens F)
  sources : List (Source F)

/-- One turn of the reading loop of `main` (lines 81-96) on the line `line`:
the catalogue after the turn, or `none` when the turn panics. -/
def ingestLine (parseFloat : String → Option F) (atoi : String → Int) (cat : Catalog F)
    (line : String) : Option (Catalog F) :=
  if hasPrefix line "#" then
    some cat
  else
    let fs := fields line
    match getMeasurement parseFloat fs "flux" 3 4 with
    | none => none
    | some (.error _) => some cat
    | some (.ok flux) =>
      if gt flux.Value (lit 1011.830) then
        match getLensData parseFloat atoi fs with
        | none => none
        | some lens => some { lenses := cat.lenses ++ [lens], sources := cat.sources }
      else
        match getSourceData parseFloat atoi fs with
        | none => none
        | some source => some { lenses := cat.lenses, sources := cat.sources ++ [source] }

/-- The reading loop of `main` (lines 78-97) over the lines the scanner
delivers, starting from two empty slices. -/
def ingest (parseFloat : String → Option F) (atoi : String → Int) (lines : List String) :
    Option (Catalog F) :=
  lines.foldlM (ingestLine parseFloat atoi) { lenses := [], sources := [] }

end Ingestion

/-! ## The carrier `F64` -/

/-- A float64 value without rounding: a real number or one of the special
values `NaN`, `+Inf`, `-Inf`.  The finite values are computed exactly, the
special values by the rules of IEEE 754. -/
inductive F64 where
  | nan : F64
  | pinf : F64
  | ninf : F64
  | fin : ℝ → F64

namespace F64

/-- Unary minus. -/
def neg : F64 → F64
  | nan => nan
  | pinf => ninf
  | ninf => pinf
  | fin a => fin (-a)

/-- Addition: `Inf + (-Inf)` is `NaN`. -/
def add : F64 → F64 → F64
  | fin a, fin b => fin (a + b)
  | nan, _ => nan
  | _, nan => nan
  | pinf, ninf => nan
  | ninf, pinf => nan
  | pinf, _ => pinf
  | ninf, _ => ninf
  | fin _, pinf => pinf
  | fin _, ninf => ninf

/-- Subtraction: `a - b` is `a + (-b)`. -/
def sub (a b : F64) : F64 := add a (neg b)

/-- The infinity with the sign of `a`, or `NaN` when `a` is zero. -/
noncomputable def signedInf (a : ℝ) : F64 :=
  if a = 0 then nan else if 0 < a then pinf else ninf

/-- Multiplication: `0 * Inf` is `NaN`. -/
noncomputable def mul : F64 → F64 → F64
  | fin a, fin b => fin (a * b)
  | nan, _ => nan
  | _, nan => nan
  | pinf, pinf => pinf
  | pinf, ninf => ninf
  | ninf, pinf => ninf
  | ninf, ninf => pinf
  | pinf, fin b => signedInf b
  | ninf, fin b => signedInf (-b)
  | fin a, pinf => signedInf a
  | fin a, ninf => signedInf (-a)

/-- Division: `0 / 0` and `Inf / Inf` are `NaN`; a zero divisor counts as `+0`. -/
noncomputable def div : F64 → F64 → F64
  | fin a, fin b => if b = 0 then signedInf a else fin (a / b)
  | nan, _ => nan
  | _, nan => nan
  | fin _, pinf => fin 0
  | fin _, ninf => fin 0
  | pinf, fin b => if 0 ≤ b then pinf else ninf
  | ninf, fin b => if 0 ≤ b then ninf else pinf
  | pinf, pinf => nan
  | pinf, ninf => nan
  | ninf, pinf => nan
  | ninf, ninf => nan

/-- Go `math.Sqrt`: `Sqrt(+Inf) = +Inf`, `Sqrt(x < 0) = NaN`, `Sqrt(NaN) = NaN`. -/
noncomputable def sqrt : F64 → F64
  | fin a => if a < 0 then nan else fin (Real.sqrt a)
  | pinf => pinf
  | ninf => nan
  | nan => nan

/-- Go `math.Cos`: `Cos(±Inf) = NaN`, `Cos(NaN) = NaN`. -/
noncomputable def cos : F64 → F64
  | fin a => fin (Real.cos a)
  | _ => nan

/-- Go `math.Sin`: `Sin(±Inf) = NaN`, `Sin(NaN) = NaN`. -/
noncomputable def sin : F64 → F64
  | fin a => fin (Real.sin a)
  | _ => nan

/-- Go `math.Atan2(y, x)`: the angle of the point `(x, y)` in `(-π, π]`, with
the special cases of the Go documentation. -/
noncomputable def atan2 : F64 → F64 → F64
  | fin y, fin x => fin (Complex.arg ⟨x, y⟩)
  | nan, _ => nan
  | _, nan => nan
  | pinf, pinf => fin (Real.pi / 4)
  | ninf, pinf => fin (-(Real.pi / 4))
  | pinf, ninf => fin (3 * Real.pi / 4)
  | ninf, ninf => fin (-(3 * Real.pi / 4))
  | fin _, pinf => fin 0
  | fin y, ninf => if y < 0 then fin (-Real.pi) else fin Real.pi
  | pinf, fin _ => fin (Real.pi / 2)
  | ninf, fin _ => fin (-(Real.pi / 2))

/-- The comparison `a <= b`: false when either side is `NaN`. -/
noncomputable def le : F64 → F64 → Bool
  | fin a, fin b => decide (a ≤ b)
  | nan, _ => false
  | _, nan => false
  | ninf, _ => true
  | _, pinf => true
  | pinf, _ => false
  | fin _, ninf => false

/-- The comparison `a < b`: false when either side is `NaN`. -/
noncomputable def lt : F64 → F64 → Bool
  | fin a, fin b => decide (a < b)
  | nan, _ => false
  | _, nan => false
  | pinf, _ => false
  | _, ninf => false
  | ninf, _ => true
  | fin _, pinf => true

/-- A value that is neither `NaN` nor an infinity. -/
def isFinite : F64 → Prop
  | fin _ => True
  | _ => False

end F64

noncomputable instance : FloatOps F64 where
  add := F64.add
  sub := F64.sub
  mul := F64.mul
  div := F64.div
  neg := F64.neg
  lit q := F64.fin (q : ℝ)
  sqrt := F64.sqrt
  cos := F64.cos
  sin := F64.sin
  atan2 := F64.atan2
  le := F64.le
  lt := F64.lt

/-! ## Notions of the specification -/

/-- The qualification filter in the words of the specification (section 4.3,
step 3): `37.0 < separation < 54838.0`, strict on both bounds. -/
def qualifies {F : Type} [FloatOps F] (lens : Lens F) (source : Source F) : Prop :=
  FloatOps.lt (FloatOps.lit 37) (deltaTh lens source) = true ∧
    FloatOps.lt (deltaTh lens source) (FloatOps.lit 54838) = true

/-- Rotation of the plane by the angle `theta`, the proper 2D rotation of the
specification: `(a, b)` goes to
`(cos theta * a - sin theta * b, sin theta * a + cos theta * b)`. -/
def rotate {F : Type} [FloatOps F] (theta a b : F) : F × F :=
  (FloatOps.cos theta * a - FloatOps.sin theta * b,
   FloatOps.sin theta * a + FloatOps.cos theta * b)

/-- Determinant of the shear transform at bearing `phi`: the columns of its
matrix are the images of `(1, 0)` and `(0, 1)` under lines 118 and 119. -/
def shearDet {F : Type} [FloatOps F] (phi : F) : F :=
  seVal phi (FloatOps.lit 1) (FloatOps.lit 0) * sbVal phi (FloatOps.lit 0) (FloatOps.lit 1)
    - seVal phi (FloatOps.lit 0) (FloatOps.lit 1) * sbVal phi (FloatOps.lit 1) (FloatOps.lit 0)

/-! ## Facts of IEEE 754 arithmetic

Each of the following facts holds of Go `float64` and of the functions of the
Go `math` package, with the two zeros of IEEE 754 taken as one value.  A theorem
that rests on one of them has it as a hypothesis. -/

/-- The comparisons of IEEE 754, with `isNaN` the test for `NaN`: `x <= y` is
false exactly when `y < x` or one of the two is `NaN`; a value that is not `NaN`
is `<=` itself; a decimal constant of the program text is not `NaN`. -/
structure CompareLaws (F : Type) [FloatOps F] (isNaN : F → Prop) : Prop where
  not_le : ∀ x y : F,
    FloatOps.le x y = false ↔ (FloatOps.lt y x = true ∨ isNaN x ∨ isNaN y)
  le_self : ∀ x : F, ¬ isNaN x → FloatOps.le x x = true
  lit_not_nan : ∀ q : ℚ, ¬ isNaN (FloatOps.lit q : F)

/-- IEEE 754 multiplication takes the sign of the product from the signs of the
factors and rounds the magnitude: `(-a) * b` and `a * (-b)` are the same
value. -/
def NegMulLaw (F : Type) [FloatOps F] : Prop :=
  ∀ a b : F, -a * b = a * -b

/-- Multiplying by the constant `1.` changes no float64 value. -/
def OneMulLaw (F : Type) [FloatOps F] : Prop :=
  ∀ a : F, FloatOps.lit 1 * a = a

/-- The difference of a finite value and itself is zero, with `isFinite` the
test for a value that is neither `NaN` nor an infinity. -/
def SubSelfLaw (F : Type) [FloatOps F] (isFinite : F → Prop) : Prop :=
  ∀ y : F, isFinite y → y - y = FloatOps.lit 0

/-- The separation of the displacement `(0, 0)`, `Sqrt(0*0 + 0*0) = 0`, is at
most `37.0`. -/
def ZeroSeparationLaw (F : Type) [FloatOps F] : Prop :=
  FloatOps.le
    (FloatOps.sqrt (FloatOps.lit 0 * FloatOps.lit 0 + FloatOps.lit 0 * FloatOps.lit 0 : F))
    (FloatOps.lit 37) = true

/-- Float64 arithmetic on the positive x axis, for a displacement `(d, 0)` with
`37.0 < d < 54838.0`: `Sqrt(d*d + 0*0) = d` (the square root of the rounded
square of a binary float is that float, and `d*d` does not overflow);
`Atan2(0, d) = 0`; `Cos(2.*0) = 1` and `Sin(2.*0) = 0`; `-1*a = -a` and
`a - 0 = a`, `0 + a = a` for every `a`; `0*a = 0` and `-0*a = 0` for finite
`a`. -/
structure AxisLaws (F : Type) [FloatOps F] (isFinite : F → Prop) : Prop where
  sqrt_sq : ∀ d : F, FloatOps.lt (FloatOps.lit 37) d = true →
    FloatOps.lt d (FloatOps.lit 54838) = true →
    FloatOps.sqrt (d * d + FloatOps.lit 0 * FloatOps.lit 0) = d
  atan2_zero : ∀ d : F, FloatOps.lt (FloatOps.lit 37) d = true →
    FloatOps.atan2 (FloatOps.lit 0) d = FloatOps.lit 0
  cos_zero : FloatOps.cos (FloatOps.lit 2 * FloatOps.lit 0 : F) = FloatOps.lit 1
  sin_zero : FloatOps.sin (FloatOps.lit 2 * FloatOps.lit 0 : F) = FloatOps.lit 0
  neg_one_mul : ∀ a : F, -(FloatOps.lit 1) * a = -a
  sub_zero : ∀ a : F, a - FloatOps.lit 0 = a
  zero_add : ∀ a : F, FloatOps.lit 0 + a = a
  zero_mul : ∀ a : F, isFinite a → FloatOps.lit 0 * a = FloatOps.lit 0
  neg_zero_mul : ∀ a : F, isFinite a → -(FloatOps.lit 0) * a = FloatOps.lit 0
/-! ## Example inputs -/

/-- A source at `(x, y)` whose shear, flexion-F and flexion-G components have the
given values and uncertainty zero. -/
noncomputable def mkSource (id : Int) (x y s1 s2 f1 f2 g1 g2 : F64) : Source F64 :=
  { ID := id, X := x, Y := y,
    Shear := { One := ⟨s1, .fin 0⟩, Two := ⟨s2, .fin 0⟩,
               EMode := Measurement.zero, BMode := Measurement.zero },
    FlexionF := { One := ⟨f1, .fin 0⟩, Two := ⟨f2, .fin 0⟩,
                  EMode := Measurement.zero, BMode := Measurement.zero },
    FlexionG := { One := ⟨g1, .fin 0⟩, Two := ⟨g2, .fin 0⟩,
                  EMode := Measurement.zero, BMode := Measurement.zero } }

/-- A lens at the origin. -/
def lensOrigin : Lens F64 := { ID := 1, X := .fin 0, Y := .fin 0 }

/-- A source whose x position is `NaN` (the token `NaN` in column 1). -/
noncomputable def sourceNaN : Source F64 :=
  mkSource 2 .nan (.fin 0) (.fin 0) (.fin 0) (.fin 0) (.fin 0) (.fin 0) (.fin 0)

/-- A source at `(30, 40)`, at separation `50` from the origin. -/
noncomputable def source3040 : Source F64 :=
  mkSource 2 (.fin 30) (.fin 40) (.fin 1) (.fin 2) (.fin 3) (.fin 4) (.fin 5) (.fin 6)

/-- A source at `(100, 0)`, on the positive x axis of the origin, with shear,
flexion-F and flexion-G all `(1, 0)`. -/
noncomputable def sourceAxis : Source F64 :=
  mkSource 2 (.fin 100) (.fin 0) (.fin 1) (.fin 0) (.fin 1) (.fin 0) (.fin 1) (.fin 0)

/-- A source at `(37, 0)`, at separation exactly `37` from the origin. -/
noncomputable def source37 : Source F64 :=
  mkSource 2 (.fin 37) (.fin 0) (.fin 1) (.fin 0) (.fin 1) (.fin 0) (.fin 1) (.fin 0)

/-- A source at `(100, 0)` whose second shear component is `+Inf` (the token
`Inf` in column 15). -/
noncomputable def sourceInfShear : Source F64 :=
  mkSource 2 (.fin 100) (.fin 0) (.fin 0.1) .pinf (.fin 0) (.fin 0) (.fin 0) (.fin 0)

/-- A parser for the examples: it reads an unsigned decimal integer, as
`strconv.ParseFloat` does, and refuses every other token. -/
noncomputable def parseDigits (tok : String) : Option F64 :=
  if tok.data ≠ [] ∧ tok.data.all Char.isDigit then
    some (.fin ((tok.data.foldl (fun n c => 10 * n + (c.toNat - 48)) 0 : ℕ) : ℝ))
  else none

/-- An integer reader for the examples: it reads an unsigned decimal integer, as
`strconv.Atoi` does, and returns `0` for every other token. -/
def atoiDigits (tok : String) : Int :=
  if tok.data ≠ [] ∧ tok.data.all Char.isDigit then
    (tok.data.foldl (fun n c => 10 * n + (c.toNat - 48)) 0 : ℕ)
  else 0

/-- A line of five tokens whose flux, `5`, is below the threshold. -/
def shortLine : String := "7 0 0 5 0"

/-- A line of twenty-five tokens whose flux is `5`. -/
def sourceLine : String := "2 100 0 5 0 0 0 0 0 0 0 0 0 1 0 2 0 3 0 4 0 5 0 6 0"

/-- The source of the end-to-end scenario of the specification: at `(100, 0)`,
with shear `(0.1, 0.0)`. -/
noncomputable def specSource : Source F64 :=
  mkSource 2 (.fin 100) (.fin 0) (.fin 0.1) (.fin 0) (.fin 0) (.fin 0) (.fin 0) (.fin 0)

/-- A lens whose y position is `+Inf` (the token `Inf` in column 2). -/
def lensInfY : Lens F64 := { ID := 1, X := .fin 0, Y := .pinf }

/-- A source at `x = 100` whose y position is `+Inf`, like that of `lensInfY`. -/
noncomputable def sourceInfY : Source F64 :=
  mkSource 2 (.fin 100) .pinf (.fin 0.1) (.fin 0) (.fin 0) (.fin 0) (.fin 0) (.fin 0)

/-- A source at the position of `lensInfY`. -/
noncomputable def sourceAtLensInfY : Source F64 :=
  mkSource 2 (.fin 0) .pinf (.fin 0) (.fin 0) (.fin 0) (.fin 0) (.fin 0) (.fin 0)

/-! ## Notions of the specification for ingestion -/

/-- The value parsed from column `i` of a tokenized line: `none` when the
column is missing or `strconv.ParseFloat` refuses its token. -/
def column {F : Type} (parseFloat : String → Option F) (fs : List String) (i : Int) :
    Option F :=
  (index fs i).bind parseFloat

/-- A line that is not a comment and whose flux (columns 3 and 4) parsed
successfully. -/
def fluxParsed {F : Type} [FloatOps F] (parseFloat : String → Option F) (line : String) :
    Bool :=
  !hasPrefix line "#" &&
    match getMeasurement parseFloat (fields line) "flux" 3 4 with
    | some (.ok _) => true
    | _ => false

/-- A parser for the examples: on the tokens `NaN`, `Inf`, `+Inf`, `Infinity`
and `-Inf` it returns the special value that `strconv.ParseFloat` returns for
them without error, and on every other token it is `parseDigits`. -/
noncomputable def parseGo (tok : String) : Option F64 :=
  if tok = "NaN" then some .nan
  else if tok = "Inf" ∨ tok = "+Inf" ∨ tok = "Infinity" then some .pinf
  else if tok = "-Inf" then some .ninf
  else parseDigits tok

/-- A line of five tokens whose flux column is not a number. -/
def badFluxLine : String := "7 0 0 x 0"

/-- A line of five tokens whose flux is `NaN` with uncertainty `Inf`. -/
def nanLine : String := "7 0 0 NaN Inf"

/-- A line of twenty-five tokens whose flux is `2000`. -/
def lensLine : String := "1 0 0 2000 0 0 0 0 0 0 0 0 0 0 0 0 0 0 0 0 0 0 0 0 0"

/-- A line of twenty-five tokens whose flux column is not a number. -/
def badFluxLongLine : String := "9 0 0 x 0 0 0 0 0 0 0 0 0 0 0 0 0 0 0 0 0 0 0 0 0"

/-- A line of twenty-five tokens whose flux is `5` and whose column 15 (shear 2)
is not a number. -/
def badShearLine : String := "2 100 0 5 0 0 0 0 0 0 0 0 0 1 0 x 0 3 0 4 0 5 0 6 0"

/-- A catalogue of a comment, a line with unparsable flux, a lens and a
source. -/
def exampleCatalog : List String := ["# catalogue", badFluxLongLine, lensLine, sourceLine]

/-! ## The scan as a whole (gogal.go lines 99-142) -/

/-- The sends of the producer goroutines of `main` (lines 102-134): one
sequence per lens, in the order of `lenses`. -/
def scanTasks {F : Type} [FloatOps F] (lenses : List (Lens F)) (sources : List (Source F)) :
    List (List (GalGalData F)) :=
  lenses.map (lensTask sources)

/-- The zero value `GalGalData{}`, which a receive from a closed channel
yields. -/
def GalGalData.zero {F : Type} [FloatOps F] : GalGalData F :=
  { Lens := { ID := 0, X := FloatOps.lit 0, Y := FloatOps.lit 0 },
    Source := { ID := 0, X := FloatOps.lit 0, Y := FloatOps.lit 0, Shear := Shear.zero,
                FlexionF := FlexionF.zero, FlexionG := FlexionG.zero },
    DeltaTh := FloatOps.lit 0, DeltaX := FloatOps.lit 0, DeltaY := FloatOps.lit 0,
    Phi := FloatOps.lit 0, Shear := Shear.zero, FlexionF := FlexionF.zero,
    FlexionG := FlexionG.zero }

/-- A state of the scheduler of `main` (lines 99-142): what each producer
goroutine has still to send on `printChan`, the value the consumer goroutine
has received and not yet printed, the values printed so far, whether `main` has
returned from `wg.Wait()` and run the deferred `close(printChan)`, and whether
the process has exited. -/
structure Sched (α : Type) where
  pending : List (List α)
  holding : Option α
  printed : List α
  closed : Bool
  exited : Bool

/-- The state in which the goroutines are started. -/
def Sched.initial {α : Type} (tasks : List (List α)) : Sched α :=
  { pending := tasks, holding := none, printed := [], closed := false, exited := false }

/-- One step of the scheduler.  `printChan` is unbuffered (line 99), so a send
of line 131 happens together with the receive of line 137 and needs the consumer
to be at that receive.  The consumer prints what it holds (line 138).
`wg.Wait()` (line 141) returns once every producer is done; `main` then returns
and the deferred `close` of line 100 runs.  A receive from the closed channel
yields the zero value.  When `main` has returned the program exits without
waiting for the consumer goroutine. -/
inductive Step {α : Type} (zero : α) : Sched α → Sched α → Prop
  | send (pre post : List (List α)) (x : α) (t printed : List α) :
      Step zero
        { pending := pre ++ (x :: t) :: post, holding := none, printed := printed,
          closed := false, exited := false }
        { pending := pre ++ t :: post, holding := some x, printed := printed,
          closed := false, exited := false }
  | print (pending : List (List α)) (x : α) (printed : List α) (closed : Bool) :
      Step zero
        { pending := pending, holding := some x, printed := printed, closed := closed,
          exited := false }
        { pending := pending, holding := none, printed := printed ++ [x], closed := closed,
          exited := false }
  | close (pending : List (List α)) (holding : Option α) (printed : List α) :
      (∀ t ∈ pending, t = []) →
      Step zero
        { pending := pending, holding := holding, printed := printed, closed := false,
          exited := false }
        { pending := pending, holding := holding, printed := printed, closed := true,
          exited := false }
  | recvClosed (pending : List (List α)) (printed : List α) :
      Step zero
        { pending := pending, holding := none, printed := printed, closed := true,
          exited := false }
        { pending := pending, holding := some zero, printed := printed, closed := true,
          exited := false }
  | exit (pending : List (List α)) (holding : Option α) (printed : List α) :
      Step zero
        { pending := pending, holding := holding, printed := printed, closed := true,
          exited := false }
        { pending := pending, holding := holding, printed := printed, closed := true,
          exited := true }

/-- An execution of the scheduler: any number of steps. -/
def Execution {α : Type} (zero : α) (s t : Sched α) : Prop :=
  Relation.ReflTransGen (Step zero) s t

/-! ## Arithmetic of `F64` -/

section F64Lemmas

open F64

@[simp] theorem F64.add_def (a b : F64) : a + b = F64.add a b := rfl
@[simp] theorem F64.sub_def (a b : F64) : a - b = F64.sub a b := rfl
@[simp] theorem F64.mul_def (a b : F64) : a * b = F64.mul a b := rfl
@[simp] theorem F64.div_def (a b : F64) : a / b = F64.div a b := rfl
@[simp] theorem F64.neg_def (a : F64) : -a = F64.neg a := rfl
@[simp] theorem F64.lit_def (q : ℚ) : (FloatOps.lit q : F64) = F64.fin (q : ℝ) := rfl
@[simp] theorem F64.sqrt_def (a : F64) : FloatOps.sqrt a = F64.sqrt a := rfl
@[simp] theorem F64.cos_def (a : F64) : FloatOps.cos a = F64.cos a := rfl
@[simp] theorem F64.sin_def (a : F64) : FloatOps.sin a = F64.sin a := rfl
@[simp] theorem F64.atan2_def (a b : F64) : FloatOps.atan2 a b = F64.atan2 a b := rfl
@[simp] theorem F64.le_def (a b : F64) : FloatOps.le a b = F64.le a b := rfl
@[simp] theorem F64.lt_def (a b : F64) : FloatOps.lt a b = F64.lt a b := rfl
@[simp] theorem F64.ge_def (a b : F64) : FloatOps.ge a b = F64.le b a := rfl
@[simp] theorem F64.gt_def (a b : F64) : FloatOps.gt a b = F64.lt b a := rfl

/-- The filter of line 114 lets a value through exactly when it lies strictly
between the bounds or is `NaN`. -/
theorem F64.filter_iff (d : F64) :
    (F64.le (fin 54838) d || F64.le d (fin 37)) = false ↔
      (F64.lt (fin 37) d = true ∧ F64.lt d (fin 54838) = true) ∨ d = nan := by
  cases d <;> simp [F64.le, F64.lt]
  rw [and_comm]

end F64Lemmas

/-! ## What the pair scan returns -/

section ScanLemmas

open FloatOps

/-- A result is produced exactly when the test of line 114 is false. -/
theorem scanPair_isSome {F : Type} [FloatOps F] (lens : Lens F) (source : Source F) :
    (scanPair lens source).isSome =
      !(ge (deltaTh lens source) (lit 54838) || le (deltaTh lens source) (lit 37)) := by
  unfold scanPair
  cases h : (ge (deltaTh lens source) (lit 54838) || le (deltaTh lens source) (lit 37)) <;>
    simp [h]

/-- The fields of a produced result, read off line 131. -/
theorem scanPair_fields {F : Type} [FloatOps F] (lens : Lens F) (source : Source F)
    (r : GalGalData F) (h : scanPair lens source = some r) :
    r.Lens = lens ∧ r.Source = source ∧ r.DeltaTh = deltaTh lens source ∧
    r.DeltaX = deltaX lens source ∧ r.DeltaY = deltaY lens source ∧
    r.Phi = atan2 (deltaY lens source) (deltaX lens source) ∧
    r.Shear.EMode = ⟨seVal r.Phi source.Shear.One.Value source.Shear.Two.Value,
                     source.Shear.One.SDev⟩ ∧
    r.Shear.BMode = ⟨sbVal r.Phi source.Shear.One.Value source.Shear.Two.Value,
                     source.Shear.Two.SDev⟩ ∧
    r.FlexionF.EMode = ⟨feVal r.Phi source.FlexionF.One.Value source.FlexionF.Two.Value
                          / lit 0.186, source.FlexionF.One.SDev⟩ ∧
    r.FlexionF.BMode = ⟨fbVal r.Phi source.FlexionF.One.Value source.FlexionF.Two.Value
                          / lit 0.186, source.FlexionF.Two.SDev⟩ ∧
    r.FlexionG.EMode = ⟨geVal r.Phi source.FlexionG.One.Value source.FlexionG.Two.Value
                          / lit 0.186, source.FlexionG.One.SDev⟩ ∧
    r.FlexionG.BMode = ⟨gbVal r.Phi source.FlexionG.One.Value source.FlexionG.Two.Value
                          / lit 0.186, source.FlexionG.Two.SDev⟩ := by
  unfold scanPair at h
  dsimp only at h
  split at h
  · exact absurd h (by simp)
  · simp only [Option.some.injEq] at h
    subst h
    simp

end ScanLemmas

section QualifyingPairs

open FloatOps

/-- Multiplying by the constant `1.` changes nothing. -/
theorem F64.one_mul (a : F64) : F64.mul (F64.fin 1) a = a := by
  cases a <;> simp [F64.mul, F64.signedInf]

/-- A qualifying pair produces a result. -/
theorem scanPair_of_qualifies (lens : Lens F64) (source : Source F64)
    (h : qualifies lens source) : ∃ r, scanPair lens source = some r := by
  have hs := scanPair_isSome lens source
  have hf := (F64.filter_iff (deltaTh lens source)).2 (Or.inl h)
  simp only [F64.ge_def, F64.le_def, F64.lit_def, Rat.cast_ofNat] at hs
  rw [hf] at hs
  exact Option.isSome_iff_exists.1 (by simpa using hs)

/-- The pair of the origin lens and the source at `(30, 40)` qualifies. -/
theorem qualifies_source3040 : qualifies lensOrigin source3040 := by
  have h50 : Real.sqrt ((30 + -0) * (30 + -0) + (40 + -0) * (40 + -0)) = 50 := by
    rw [show ((30 + -0) * (30 + -0) + (40 + -0) * (40 + -0) : ℝ) = 50 ^ 2 by norm_num]
    exact Real.sqrt_sq (by norm_num)
  have hd : deltaTh lensOrigin source3040 = F64.fin 50 := by
    show F64.sqrt (F64.fin ((30 + -0) * (30 + -0) + (40 + -0) * (40 + -0))) = F64.fin 50
    rw [F64.sqrt, if_neg (by norm_num), h50]
  unfold qualifies
  rw [hd]
  simp [F64.lt]
  norm_num

end QualifyingPairs

section FiniteValues

open FloatOps

/-- The angle of the point at distance `ρ` and direction `θ` is `θ`. -/
theorem arg_polar (ρ θ : ℝ) (hρ : 0 < ρ) (hθ : θ ∈ Set.Ioc (-Real.pi) Real.pi) :
    Complex.arg ⟨ρ * Real.cos θ, ρ * Real.sin θ⟩ = θ := by
  have h : (⟨ρ * Real.cos θ, ρ * Real.sin θ⟩ : ℂ) =
      (ρ : ℂ) * (Complex.cos θ + Complex.sin θ * Complex.I) := by
    apply Complex.ext
    · simp [← Complex.ofReal_cos, ← Complex.ofReal_sin]
    · simp [← Complex.ofReal_cos, ← Complex.ofReal_sin]
  rw [h, Complex.arg_mul_cos_add_sin_mul_I hρ hθ]

/-- The norm of the point at distance `ρ` and direction `θ` is `ρ`. -/
theorem sqrt_polar (ρ θ : ℝ) (hρ : 0 < ρ) :
    Real.sqrt (ρ * Real.cos θ * (ρ * Real.cos θ) + ρ * Real.sin θ * (ρ * Real.sin θ)) =
      ρ := by
  have h : ρ * Real.cos θ * (ρ * Real.cos θ) + ρ * Real.sin θ * (ρ * Real.sin θ) =
      ρ ^ 2 := by
    have := Real.cos_sq_add_sin_sq θ
    nlinarith [this]
  rw [h, Real.sqrt_sq hρ.le]

/-- Seen from the origin lens, a source at `(ρ cos θ, ρ sin θ)` has separation
`ρ` and bearing `θ`. -/
theorem origin_polar (s : Source F64) (ρ θ : ℝ) (hρ : 0 < ρ)
    (hθ : θ ∈ Set.Ioc (-Real.pi) Real.pi)
    (hX : s.X = F64.fin (ρ * Real.cos θ)) (hY : s.Y = F64.fin (ρ * Real.sin θ)) :
    deltaTh lensOrigin s = F64.fin ρ ∧
      atan2 (deltaY lensOrigin s) (deltaX lensOrigin s) = F64.fin θ := by
  have hx : deltaX lensOrigin s = F64.fin (ρ * Real.cos θ) := by
    simp [deltaX, lensOrigin, hX, F64.sub, F64.neg, F64.add]
  have hy : deltaY lensOrigin s = F64.fin (ρ * Real.sin θ) := by
    simp [deltaY, lensOrigin, hY, F64.sub, F64.neg, F64.add]
  have hn :
      ¬ (ρ * Real.cos θ * (ρ * Real.cos θ) + ρ * Real.sin θ * (ρ * Real.sin θ) < 0) := by
    nlinarith [mul_self_nonneg (ρ * Real.cos θ), mul_self_nonneg (ρ * Real.sin θ)]
  constructor
  · unfold deltaTh
    rw [hx, hy]
    simp only [F64.mul_def, F64.add_def, F64.sqrt_def, F64.mul, F64.add, F64.sqrt, if_neg hn,
      sqrt_polar ρ θ hρ]
  · rw [hx, hy]
    simp only [F64.atan2_def, F64.atan2, arg_polar ρ θ hρ hθ]

/-- Such a pair qualifies when `37 < ρ < 54838`. -/
theorem qualifies_polar (s : Source F64) (ρ θ : ℝ) (hlo : 37 < ρ) (hhi : ρ < 54838)
    (hθ : θ ∈ Set.Ioc (-Real.pi) Real.pi)
    (hX : s.X = F64.fin (ρ * Real.cos θ)) (hY : s.Y = F64.fin (ρ * Real.sin θ)) :
    qualifies lensOrigin s := by
  obtain ⟨hd, -⟩ := origin_polar s ρ θ (by linarith) hθ hX hY
  unfold qualifies
  rw [hd]
  simp [F64.lt, hlo, hhi]

/-- Line 118 on finite values. -/
theorem seVal_fin (φ a b : ℝ) :
    seVal (F64.fin φ) (F64.fin a) (F64.fin b) =
      F64.fin (-Real.cos (2 * φ) * a - Real.sin (2 * φ) * b) := by
  simp [seVal, F64.mul, F64.cos, F64.sin, F64.neg, F64.sub, F64.add]
  ring

/-- Line 119 on finite values. -/
theorem sbVal_fin (φ a b : ℝ) :
    sbVal (F64.fin φ) (F64.fin a) (F64.fin b) =
      F64.fin (-Real.sin (2 * φ) * a + Real.cos (2 * φ) * b) := by
  simp [sbVal, F64.mul, F64.cos, F64.sin, F64.neg, F64.sub, F64.add]

end FiniteValues

section IngestionLemmas

variable {F : Type} [FloatOps F]

/-- An index inside the slice is read without panic. -/
theorem index_of_lt (fs : List String) (i : Int) (h0 : 0 ≤ i) (h : i < fs.length) :
    ∃ tok, index fs i = some tok := by
  have hlt : i.toNat < fs.length := by omega
  refine ⟨fs[i.toNat], ?_⟩
  simp [index, not_lt.2 h0, List.getElem?_eq_getElem hlt]

/-- An index that is read without panic lies inside the slice. -/
theorem lt_of_index (fs : List String) (i : Int) (tok : String) (h : index fs i = some tok) :
    0 ≤ i ∧ i < fs.length := by
  unfold index at h
  split at h
  · exact absurd h (by simp)
  · rename_i hi
    obtain ⟨hlt, -⟩ := List.getElem?_eq_some.1 h
    omega

/-- `getMeasurement` does not panic when both columns lie inside the slice. -/
theorem getMeasurement_no_panic (parseFloat : String → Option F) (fs : List String)
    (name : String) (valPos errPos : Int) (h0 : 0 ≤ valPos) (hv : valPos < fs.length)
    (he : errPos < fs.length) :
    ∃ res, getMeasurement parseFloat fs name valPos errPos = some res := by
  obtain ⟨tok, htok⟩ := index_of_lt fs valPos h0 hv
  obtain ⟨id, hid⟩ := index_of_lt fs 0 le_rfl (by omega)
  unfold getMeasurement
  cases hp : parseFloat tok with
  | none => simp [htok, hp, hid]
  | some value =>
    by_cases hpos : errPos > 0
    · obtain ⟨etok, hetok⟩ := index_of_lt fs errPos (by omega) he
      cases hq : parseFloat etok with
      | none => simp [htok, hp, hpos, hetok, hq, hid]
      | some sDev => simp [htok, hp, hpos, hetok, hq]
    · simp [htok, hp, hpos]

/-- A measurement read with an uncertainty column comes from a slice that holds
that column. -/
theorem length_of_getMeasurement_ok (parseFloat : String → Option F) (fs : List String)
    (name : String) (valPos errPos : Int) (m : Measurement F) (hpos : errPos > 0)
    (h : getMeasurement parseFloat fs name valPos errPos = some (.ok m)) :
    errPos < fs.length := by
  unfold getMeasurement at h
  cases hi : index fs valPos with
  | none => simp [hi] at h
  | some tok =>
    cases hp : parseFloat tok with
    | none =>
      cases h0 : index fs 0 <;> simp [hi, hp, h0] at h
    | some value =>
      cases hie : index fs errPos with
      | none => simp [hi, hp, hpos, hie] at h
      | some etok => exact (lt_of_index fs errPos etok hie).2

/-- `getPosition` does not panic on a slice of three or more tokens. -/
theorem getPosition_no_panic (parseFloat : String → Option F) (fs : List String)
    (h : 3 ≤ fs.length) : ∃ p, getPosition parseFloat fs = some p := by
  obtain ⟨rx, hx⟩ := getMeasurement_no_panic parseFloat fs "x position" 1 (-1)
    (by omega) (by omega) (by omega)
  obtain ⟨ry, hy⟩ := getMeasurement_no_panic parseFloat fs "y position" 2 (-1)
    (by omega) (by omega) (by omega)
  unfold getPosition
  rw [hx]
  cases rx with
  | error e => exact ⟨_, rfl⟩
  | ok x =>
    simp only [hy]
    cases ry with
    | error e => exact ⟨_, rfl⟩
    | ok y => exact ⟨_, rfl⟩

/-- `getShear` does not panic on a slice of seventeen or more tokens. -/
theorem getShear_no_panic (parseFloat : String → Option F) (fs : List String)
    (h : 17 ≤ fs.length) : ∃ s, getShear parseFloat fs = some s := by
  obtain ⟨r1, h1⟩ := getMeasurement_no_panic parseFloat fs "shear 1" 13 14
    (by omega) (by omega) (by omega)
  obtain ⟨r2, h2⟩ := getMeasurement_no_panic parseFloat fs "shear 2" 15 16
    (by omega) (by omega) (by omega)
  unfold getShear
  rw [h1]
  cases r1 with
  | error e => exact ⟨_, rfl⟩
  | ok x =>
    simp only [h2]
    cases r2 with
    | error e => exact ⟨_, rfl⟩
    | ok y => exact ⟨_, rfl⟩

/-- `getFlexionF` does not panic on a slice of twenty-one or more tokens. -/
theorem getFlexionF_no_panic (parseFloat : String → Option F) (fs : List String)
    (h : 21 ≤ fs.length) : ∃ s, getFlexionF parseFloat fs = some s := by
  obtain ⟨r1, h1⟩ := getMeasurement_no_panic parseFloat fs "flexion F 1" 17 18
    (by omega) (by omega) (by omega)
  obtain ⟨r2, h2⟩ := getMeasurement_no_panic parseFloat fs "Flexion F 2" 19 20
    (by omega) (by omega) (by omega)
  unfold getFlexionF
  rw [h1]
  cases r1 with
  | error e => exact ⟨_, rfl⟩
  | ok x =>
    simp only [h2]
    cases r2 with
    | error e => exact ⟨_, rfl⟩
    | ok y => exact ⟨_, rfl⟩

/-- `getFlexionG` does not panic on a slice of twenty-five or more tokens. -/
theorem getFlexionG_no_panic (parseFloat : String → Option F) (fs : List String)
    (h : 25 ≤ fs.length) : ∃ s, getFlexionG parseFloat fs = some s := by
  obtain ⟨r1, h1⟩ := getMeasurement_no_panic parseFloat fs "flexion G 1" 21 22
    (by omega) (by omega) (by omega)
  obtain ⟨r2, h2⟩ := getMeasurement_no_panic parseFloat fs "Flexion G 2" 23 24
    (by omega) (by omega) (by omega)
  unfold getFlexionG
  rw [h1]
  cases r1 with
  | error e => exact ⟨_, rfl⟩
  | ok x =>
    simp only [h2]
    cases r2 with
    | error e => exact ⟨_, rfl⟩
    | ok y => exact ⟨_, rfl⟩

/-- `getLensData` does not panic on a slice of three or more tokens. -/
theorem getLensData_no_panic (parseFloat : String → Option F) (atoi : String → Int)
    (fs : List String) (h : 3 ≤ fs.length) :
    ∃ l, getLensData parseFloat atoi fs = some l := by
  obtain ⟨⟨x, y⟩, hp⟩ := getPosition_no_panic parseFloat fs h
  obtain ⟨id, hid⟩ := index_of_lt fs 0 le_rfl (by omega)
  exact ⟨{ ID := atoi id, X := x, Y := y }, by simp [getLensData, hp, hid]⟩

/-- `getSourceData` does not panic on a slice of twenty-five or more tokens. -/
theorem getSourceData_no_panic (parseFloat : String → Option F) (atoi : String → Int)
    (fs : List String) (h : 25 ≤ fs.length) :
    ∃ s, getSourceData parseFloat atoi fs = some s := by
  obtain ⟨⟨x, y⟩, hp⟩ := getPosition_no_panic parseFloat fs (by omega)
  obtain ⟨id, hid⟩ := index_of_lt fs 0 le_rfl (by omega)
  obtain ⟨s, hs⟩ := getShear_no_panic parseFloat fs (by omega)
  obtain ⟨f, hf⟩ := getFlexionF_no_panic parseFloat fs (by omega)
  obtain ⟨g, hg⟩ := getFlexionG_no_panic parseFloat fs h
  exact ⟨{ ID := atoi id, X := x, Y := y, Shear := s, FlexionF := f, FlexionG := g },
    by simp [getSourceData, hp, hid, hs, hf, hg]⟩

end IngestionLemmas

section IngestLoopLemmas

variable {F : Type} [FloatOps F]

/-- One turn of the reading loop adds one record when the line is no comment
and its flux parsed, and none otherwise. -/
theorem ingestLine_counts (parseFloat : String → Option F) (atoi : String → Int)
    (cat cat' : Catalog F) (line : String)
    (h : ingestLine parseFloat atoi cat line = some cat') :
    cat'.lenses.length + cat'.sources.length =
      cat.lenses.length + cat.sources.length +
        (if fluxParsed parseFloat line = true then 1 else 0) := by
  unfold ingestLine at h
  unfold fluxParsed
  by_cases hc : hasPrefix line "#" = true
  · simp only [hc, if_true, Option.some.injEq] at h
    subst h
    simp [hc]
  · simp only [hc, Bool.false_eq_true, if_false] at h
    cases hm : getMeasurement parseFloat (fields line) "flux" 3 4 with
    | none => simp [hm] at h
    | some res =>
      cases res with
      | error e =>
        simp only [hm, Option.some.injEq] at h
        subst h
        simp [hc]
      | ok flux =>
        simp only [hm] at h
        by_cases hgt : FloatOps.gt flux.Value (FloatOps.lit 1011.830) = true
        · simp only [hgt, if_true] at h
          cases hl : getLensData parseFloat atoi (fields line) with
          | none => simp [hl] at h
          | some lens =>
            simp only [hl, Option.some.injEq] at h
            subst h
            simp [hc]
            omega
        · simp only [hgt, Bool.false_eq_true, if_false] at h
          cases hs : getSourceData parseFloat atoi (fields line) with
          | none => simp [hs] at h
          | some source =>
            simp only [hs, Option.some.injEq] at h
            subst h
            simp [hc]
            omega

/-- The reading loop, started from any catalogue, adds one record for each line
that is no comment and whose flux parsed. -/
theorem foldlM_ingestLine_counts (parseFloat : String → Option F) (atoi : String → Int)
    (lines : List String) (cat cat' : Catalog F)
    (h : lines.foldlM (ingestLine parseFloat atoi) cat = some cat') :
    cat'.lenses.length + cat'.sources.length =
      cat.lenses.length + cat.sources.length +
        (lines.filter (fluxParsed parseFloat)).length := by
  induction lines generalizing cat with
  | nil =>
    simp only [List.foldlM_nil] at h
    cases h
    simp
  | cons line rest ih =>
    rw [List.foldlM_cons] at h
    cases hl : ingestLine parseFloat atoi cat line with
    | none => simp [hl] at h
    | some mid =>
      rw [hl] at h
      have h1 := ingestLine_counts parseFloat atoi cat mid line hl
      have h2 := ih mid h
      rw [h2, h1, List.filter_cons]
      by_cases hp : fluxParsed parseFloat line = true
      · simp [hp]
        omega
      · simp [hp]

/-- A comment line and a line of 25 or more tokens are read without panic. -/
theorem ingestLine_no_panic (parseFloat : String → Option F) (atoi : String → Int)
    (cat : Catalog F) (line : String)
    (h : hasPrefix line "#" = true ∨ 25 ≤ (fields line).length) :
    ∃ cat', ingestLine parseFloat atoi cat line = some cat' := by
  unfold ingestLine
  by_cases hc : hasPrefix line "#" = true
  · exact ⟨cat, by simp [hc]⟩
  · have h25 : 25 ≤ (fields line).length := h.resolve_left hc
    obtain ⟨res, hm⟩ := getMeasurement_no_panic parseFloat (fields line) "flux" 3 4
      (by omega) (by omega) (by omega)
    obtain ⟨lens, hl⟩ := getLensData_no_panic parseFloat atoi (fields line) (by omega)
    obtain ⟨source, hs⟩ := getSourceData_no_panic parseFloat atoi (fields line) h25
    simp only [hc, Bool.false_eq_true, if_false, hm]
    cases res with
    | error e => exact ⟨cat, rfl⟩
    | ok flux =>
      by_cases hgt : FloatOps.gt flux.Value (FloatOps.lit 1011.830) = true
      · exact ⟨{ lenses := cat.lenses ++ [lens], sources := cat.sources },
          by simp only [hgt, if_true, hl]⟩
      · exact ⟨{ lenses := cat.lenses, sources := cat.sources ++ [source] },
          by simp only [hgt, Bool.false_eq_true, if_false, hs]⟩

/-- The reading loop completes on a catalogue whose lines are comments or have
25 or more tokens. -/
theorem foldlM_ingestLine_no_panic (parseFloat : String → Option F) (atoi : String → Int)
    (lines : List String) (cat : Catalog F)
    (h : ∀ line ∈ lines, hasPrefix line "#" = true ∨ 25 ≤ (fields line).length) :
    ∃ cat', lines.foldlM (ingestLine parseFloat atoi) cat = some cat' := by
  induction lines generalizing cat with
  | nil => exact ⟨cat, rfl⟩
  | cons line rest ih =>
    obtain ⟨mid, hmid⟩ := ingestLine_no_panic parseFloat atoi cat line
      (h line (List.mem_cons_self _ _))
    obtain ⟨cat', hc⟩ := ih mid (fun l hl => h l (List.mem_cons_of_mem _ hl))
    exact ⟨cat', by rw [List.foldlM_cons, hmid]; exact hc⟩

end IngestLoopLemmas

section SubStructureLemmas

variable {F : Type} [FloatOps F]

/-- A measurement with an uncertainty column, read from columns that exist:
either both tokens parse and the measurement holds their values, or one of them
does not and an error is returned. -/
theorem getMeasurement_pair (parseFloat : String → Option F) (fs : List String)
    (name : String) (valPos errPos : Int) (h0 : 0 ≤ valPos) (hv : valPos < fs.length)
    (hpos : errPos > 0) (he : errPos < fs.length) :
    (∃ a b, column parseFloat fs valPos = some a ∧ column parseFloat fs errPos = some b ∧
      getMeasurement parseFloat fs name valPos errPos = some (.ok ⟨a, b⟩)) ∨
    ((column parseFloat fs valPos = none ∨ column parseFloat fs errPos = none) ∧
      ∃ msg, getMeasurement parseFloat fs name valPos errPos = some (.error msg)) := by
  obtain ⟨tok, htok⟩ := index_of_lt fs valPos h0 hv
  obtain ⟨etok, hetok⟩ := index_of_lt fs errPos (by omega) he
  obtain ⟨id, hid⟩ := index_of_lt fs 0 le_rfl (by omega)
  unfold getMeasurement column
  cases hp : parseFloat tok with
  | none =>
    exact Or.inr ⟨Or.inl (by simp [htok, hp]),
      "object " ++ id ++ ": could not parse `" ++ tok ++ "` as " ++ name,
      by simp [htok, hp, hid]⟩
  | some a =>
    cases hq : parseFloat etok with
    | none =>
      exact Or.inr ⟨Or.inr (by simp [hetok, hq]),
        "object " ++ id ++ ": could not parse `" ++ etok ++ "` as " ++ name ++ " error",
        by simp [htok, hp, hpos, hetok, hq, hid]⟩
    | some b =>
      exact Or.inl ⟨a, b, by simp [htok, hp], by simp [hetok, hq],
        by simp [htok, hp, hpos, hetok, hq]⟩

/-- A measurement without uncertainty column, read from a column that exists:
either the token parses and the measurement holds its value with uncertainty
`0`, or it does not and an error is returned. -/
theorem getMeasurement_single (parseFloat : String → Option F) (fs : List String)
    (name : String) (valPos : Int) (h0 : 0 ≤ valPos) (hv : valPos < fs.length) :
    (∃ a, column parseFloat fs valPos = some a ∧
      getMeasurement parseFloat fs name valPos (-1) = some (.ok ⟨a, FloatOps.lit 0⟩)) ∨
    (column parseFloat fs valPos = none ∧
      ∃ msg, getMeasurement parseFloat fs name valPos (-1) = some (.error msg)) := by
  obtain ⟨tok, htok⟩ := index_of_lt fs valPos h0 hv
  obtain ⟨id, hid⟩ := index_of_lt fs 0 le_rfl (by omega)
  unfold getMeasurement column
  cases hp : parseFloat tok with
  | none =>
    exact Or.inr ⟨by simp [htok, hp],
      "object " ++ id ++ ": could not parse `" ++ tok ++ "` as " ++ name,
      by simp [htok, hp, hid]⟩
  | some a => exact Or.inl ⟨a, by simp [htok, hp], by simp [htok, hp]⟩

/-- `getPosition` on a slice of three or more tokens: the parsed pair when both
columns parse, `(0, 0)` otherwise. -/
theorem getPosition_cases (parseFloat : String → Option F) (fs : List String)
    (h : 3 ≤ fs.length) :
    (∃ x y, column parseFloat fs 1 = some x ∧ column parseFloat fs 2 = some y ∧
      getPosition parseFloat fs = some (x, y)) ∨
    ((column parseFloat fs 1 = none ∨ column parseFloat fs 2 = none) ∧
      getPosition parseFloat fs = some (FloatOps.lit 0, FloatOps.lit 0)) := by
  unfold getPosition
  rcases getMeasurement_single parseFloat fs "x position" 1 (by omega) (by omega) with
    ⟨x, hx, hmx⟩ | ⟨hx, msg, hmx⟩
  · rcases getMeasurement_single parseFloat fs "y position" 2 (by omega) (by omega) with
      ⟨y, hy, hmy⟩ | ⟨hy, msg, hmy⟩
    · exact Or.inl ⟨x, y, hx, hy, by simp [hmx, hmy]⟩
    · exact Or.inr ⟨Or.inr hy, by simp [hmx, hmy]⟩
  · exact Or.inr ⟨Or.inl hx, by simp [hmx]⟩

/-- `getShear` on a slice of seventeen or more tokens: the parsed components
when columns 13 to 16 all parse, `Shear{}` otherwise. -/
theorem getShear_cases (parseFloat : String → Option F) (fs : List String)
    (h : 17 ≤ fs.length) :
    (∃ a b c d, column parseFloat fs 13 = some a ∧ column parseFloat fs 14 = some b ∧
      column parseFloat fs 15 = some c ∧ column parseFloat fs 16 = some d ∧
      getShear parseFloat fs =
        some { One := ⟨a, b⟩, Two := ⟨c, d⟩,
               EMode := Measurement.zero, BMode := Measurement.zero }) ∨
    ((column parseFloat fs 13 = none ∨ column parseFloat fs 14 = none ∨
        column parseFloat fs 15 = none ∨ column parseFloat fs 16 = none) ∧
      getShear parseFloat fs = some Shear.zero) := by
  unfold getShear
  rcases getMeasurement_pair parseFloat fs "shear 1" 13 14 (by omega) (by omega) (by omega)
    (by omega) with ⟨a, b, ha, hb, h1⟩ | ⟨h1n, msg, h1⟩
  · rcases getMeasurement_pair parseFloat fs "shear 2" 15 16 (by omega) (by omega) (by omega)
      (by omega) with ⟨c, d, hc, hd, h2⟩ | ⟨h2n, msg, h2⟩
    · exact Or.inl ⟨a, b, c, d, ha, hb, hc, hd, by simp [h1, h2]⟩
    · exact Or.inr ⟨by tauto, by simp [h1, h2]⟩
  · exact Or.inr ⟨by tauto, by simp [h1]⟩

/-- `getFlexionF` on a slice of twenty-one or more tokens: the parsed
components when columns 17 to 20 all parse, `FlexionF{}` otherwise. -/
theorem getFlexionF_cases (parseFloat : String → Option F) (fs : List String)
    (h : 21 ≤ fs.length) :
    (∃ a b c d, column parseFloat fs 17 = some a ∧ column parseFloat fs 18 = some b ∧
      column parseFloat fs 19 = some c ∧ column parseFloat fs 20 = some d ∧
      getFlexionF parseFloat fs =
        some { One := ⟨a, b⟩, Two := ⟨c, d⟩,
               EMode := Measurement.zero, BMode := Measurement.zero }) ∨
    ((column parseFloat fs 17 = none ∨ column parseFloat fs 18 = none ∨
        column parseFloat fs 19 = none ∨ column parseFloat fs 20 = none) ∧
      getFlexionF parseFloat fs = some FlexionF.zero) := by
  unfold getFlexionF
  rcases getMeasurement_pair parseFloat fs "flexion F 1" 17 18 (by omega) (by omega)
    (by omega) (by omega) with ⟨a, b, ha, hb, h1⟩ | ⟨h1n, msg, h1⟩
  · rcases getMeasurement_pair parseFloat fs "Flexion F 2" 19 20 (by omega) (by omega)
      (by omega) (by omega) with ⟨c, d, hc, hd, h2⟩ | ⟨h2n, msg, h2⟩
    · exact Or.inl ⟨a, b, c, d, ha, hb, hc, hd, by simp [h1, h2]⟩
    · exact Or.inr ⟨by tauto, by simp [h1, h2]⟩
  · exact Or.inr ⟨by tauto, by simp [h1]⟩

/-- `getFlexionG` on a slice of twenty-five or more tokens: the parsed
components when columns 21 to 24 all parse, `FlexionG{}` otherwise. -/
theorem getFlexionG_cases (parseFloat : String → Option F) (fs : List String)
    (h : 25 ≤ fs.length) :
    (∃ a b c d, column parseFloat fs 21 = some a ∧ column parseFloat fs 22 = some b ∧
      column parseFloat fs 23 = some c ∧ column parseFloat fs 24 = some d ∧
      getFlexionG parseFloat fs =
        some { One := ⟨a, b⟩, Two := ⟨c, d⟩,
               EMode := Measurement.zero, BMode := Measurement.zero }) ∨
    ((column parseFloat fs 21 = none ∨ column parseFloat fs 22 = none ∨
        column parseFloat fs 23 = none ∨ column parseFloat fs 24 = none) ∧
      getFlexionG parseFloat fs = some FlexionG.zero) := by
  unfold getFlexionG
  rcases getMeasurement_pair parseFloat fs "flexion G 1" 21 22 (by omega) (by omega)
    (by omega) (by omega) with ⟨a, b, ha, hb, h1⟩ | ⟨h1n, msg, h1⟩
  · rcases getMeasurement_pair parseFloat fs "Flexion G 2" 23 24 (by omega) (by omega)
      (by omega) (by omega) with ⟨c, d, hc, hd, h2⟩ | ⟨h2n, msg, h2⟩
    · exact Or.inl ⟨a, b, c, d, ha, hb, hc, hd, by simp [h1, h2]⟩
    · exact Or.inr ⟨by tauto, by simp [h1, h2]⟩
  · exact Or.inr ⟨by tauto, by simp [h1]⟩

/-- `getSourceData` on a slice of twenty-five or more tokens assembles the
results of the four readers. -/
theorem getSourceData_eq (parseFloat : String → Option F) (atoi : String → Int)
    (fs : List String) (h : 25 ≤ fs.length) :
    ∃ id p shear flexionF flexionG, index fs 0 = some id ∧
      getPosition parseFloat fs = some p ∧ getShear parseFloat fs = some shear ∧
      getFlexionF parseFloat fs = some flexionF ∧ getFlexionG parseFloat fs = some flexionG ∧
      getSourceData parseFloat atoi fs =
        some { ID := atoi id, X := p.1, Y := p.2, Shear := shear, FlexionF := flexionF,
               FlexionG := flexionG } := by
  obtain ⟨⟨x, y⟩, hp⟩ := getPosition_no_panic parseFloat fs (by omega)
  obtain ⟨id, hid⟩ := index_of_lt fs 0 le_rfl (by omega)
  obtain ⟨s, hs⟩ := getShear_no_panic parseFloat fs (by omega)
  obtain ⟨f, hf⟩ := getFlexionF_no_panic parseFloat fs (by omega)
  obtain ⟨g, hg⟩ := getFlexionG_no_panic parseFloat fs h
  exact ⟨id, (x, y), s, f, g, hid, hp, hs, hf, hg, by simp [getSourceData, hp, hid, hs, hf, hg]⟩

end SubStructureLemmas

section ExampleLemmas

/-- The tokens of `sourceLine`. -/
theorem fields_sourceLine :
    fields sourceLine =
      ["2", "100", "0", "5", "0", "0", "0", "0", "0", "0", "0", "0", "0", "1", "0", "2", "0",
       "3", "0", "4", "0", "5", "0", "6", "0"] := by
  decide

end ExampleLemmas

section PanicLemmas

variable {F : Type} [FloatOps F]

/-- The reading loop panics on a catalogue that holds a line on which every
turn panics. -/
theorem foldlM_ingestLine_panics (parseFloat : String → Option F) (atoi : String → Int)
    (bad : String) (hbad : ∀ cat : Catalog F, ingestLine parseFloat atoi cat bad = none)
    (before after : List String) (cat : Catalog F) :
    (before ++ bad :: after).foldlM (ingestLine parseFloat atoi) cat = none := by
  induction before generalizing cat with
  | nil =>
    rw [List.nil_append, List.foldlM_cons, hbad cat]
    rfl
  | cons line rest ih =>
    rw [List.cons_append, List.foldlM_cons]
    cases h : ingestLine parseFloat atoi cat line with
    | none => rfl
    | some mid => exact ih mid

/-- A blank line has no column 3: the turn panics, whatever the parser. -/
theorem ingestLine_blank (parseFloat : String → Option F) (atoi : String → Int)
    (cat : Catalog F) : ingestLine parseFloat atoi cat "" = none := by
  have hc : hasPrefix "" "#" = false := by decide
  have hf : fields "" = [] := by decide
  simp [ingestLine, hc, hf, getMeasurement, index]

/-- A line of three tokens has no column 3: the turn panics, whatever the
parser. -/
theorem ingestLine_three_tokens (parseFloat : String → Option F) (atoi : String → Int)
    (cat : Catalog F) : ingestLine parseFloat atoi cat "1 2 3" = none := by
  have hc : hasPrefix "1 2 3" "#" = false := by decide
  have hf : fields "1 2 3" = ["1", "2", "3"] := by decide
  simp [ingestLine, hc, hf, getMeasurement, index]

/-- The line `7 0 0 5 0` is classified as a Source and has no column 13: the
turn panics. -/
theorem ingestLine_shortLine (cat : Catalog F64) :
    ingestLine parseDigits atoiDigits cat shortLine = none := by
  have hf : fields shortLine = ["7", "0", "0", "5", "0"] := by decide
  have hflux : getMeasurement parseDigits (fields shortLine) "flux" 3 4 =
      some (.ok ⟨F64.fin 5, F64.fin 0⟩) := by
    rw [hf]
    simp [getMeasurement, index, parseDigits]
  have hgt : FloatOps.gt (F64.fin 5) (FloatOps.lit 1011.830 : F64) = false := by
    simp only [F64.gt_def, F64.lit_def, F64.lt, decide_eq_false_iff_not]
    norm_num
  have hc : hasPrefix shortLine "#" = false := by decide
  have hs : getSourceData parseDigits atoiDigits (fields shortLine) = none := by
    rw [hf]
    simp [getSourceData, getPosition, getShear, getMeasurement, index, parseDigits]
  simp only [ingestLine, hc, hflux, hgt, hs, Bool.false_eq_true, if_false]

end PanicLemmas

section ScanTaskLemmas

/-- The values of all tasks of a scan are the results of the pairs of the cross
product, position by position. -/
theorem scanTasks_flatten {F : Type} [FloatOps F] (lenses : List (Lens F))
    (sources : List (Source F)) :
    (scanTasks lenses sources).flatten =
      (List.product lenses sources).filterMap (fun p => scanPair p.1 p.2) := by
  induction lenses with
  | nil => rfl
  | cons l ls ih =>
    have hp : (l :: ls).product sources = sources.map (Prod.mk l) ++ ls.product sources :=
      List.product_cons l ls sources
    unfold scanTasks at ih ⊢
    rw [List.map_cons, List.flatten_cons, ih, hp, List.filterMap_append, List.filterMap_map]
    rfl

end ScanTaskLemmas

section SchedulerLemmas

/-- One step keeps: the channel is closed only when no producer has anything
left to send. -/
theorem Step.keeps_closed_pending {α : Type} {zero : α} {s t : Sched α} (h : Step zero s t)
    (hs : s.closed = true → ∀ u ∈ s.pending, u = []) :
    t.closed = true → ∀ u ∈ t.pending, u = [] := by
  cases h with
  | send pre post x u printed => intro hc; exact absurd hc (by simp)
  | print pending x printed closed => exact hs
  | close pending holding printed hall => intro _; exact hall
  | recvClosed pending printed => exact hs
  | exit pending holding printed => exact hs

/-- In every state of every execution the channel is closed only when no
producer has anything left to send. -/
theorem Execution.closed_pending {α : Type} {zero : α} {tasks : List (List α)} {st : Sched α}
    (h : Execution zero (Sched.initial tasks) st) :
    st.closed = true → ∀ u ∈ st.pending, u = [] := by
  induction h with
  | refl => intro hc; exact absurd hc (by simp [Sched.initial])
  | tail _ hstep ih => exact hstep.keeps_closed_pending ih

/-- The process exits only after the channel is closed. -/
theorem Execution.exited_closed {α : Type} {zero : α} {tasks : List (List α)} {st : Sched α}
    (h : Execution zero (Sched.initial tasks) st) : st.exited = true → st.closed = true := by
  induction h with
  | refl => intro hc; exact absurd hc (by simp [Sched.initial])
  | tail _ hstep ih =>
    cases hstep with
    | send pre post x u printed => intro hc; exact absurd hc (by simp)
    | print pending x printed closed => intro hc; exact absurd hc (by simp)
    | close pending holding printed hall => intro _; rfl
    | recvClosed pending printed => intro _; rfl
    | exit pending holding printed => intro _; rfl

/-- A step never opens the channel again. -/
theorem Step.keeps_closed {α : Type} {zero : α} {s t : Sched α} (h : Step zero s t) :
    s.closed = true → t.closed = true := by
  cases h with
  | send pre post x u printed => intro hc; exact absurd hc (by simp)
  | print pending x printed closed => exact id
  | close pending holding printed hall => intro _; rfl
  | recvClosed pending printed => exact id
  | exit pending holding printed => exact id

/-- While the channel is open a step neither loses nor adds a value: what is
printed, held by the consumer or still to be sent after the step is a
permutation of what it was before. -/
theorem Step.keeps_values {α : Type} {zero : α} {s t : Sched α} (h : Step zero s t)
    (ht : t.closed = false) :
    (t.printed ++ t.holding.toList ++ t.pending.flatten).Perm
      (s.printed ++ s.holding.toList ++ s.pending.flatten) := by
  cases h with
  | send pre post x u printed =>
    simp only [Option.toList, List.append_nil, List.flatten_append, List.flatten_cons,
      List.cons_append, List.append_assoc, List.singleton_append]
    have hmidx : (x :: (pre.flatten ++ (u ++ post.flatten))).Perm
        (pre.flatten ++ x :: (u ++ post.flatten)) := List.perm_middle.symm
    exact List.Perm.append_left printed hmidx
  | print pending x printed closed =>
    simp [Option.toList]
  | close pending holding printed hall => exact absurd ht (by simp)
  | recvClosed pending printed => exact absurd ht (by simp)
  | exit pending holding printed => exact absurd ht (by simp)

/-- In every state of an execution in which the channel is still open, the
values printed, held by the consumer and still to be sent are together a
permutation of the values of the tasks. -/
theorem Execution.open_values {α : Type} {zero : α} {tasks : List (List α)} {st : Sched α}
    (h : Execution zero (Sched.initial tasks) st) (hopen : st.closed = false) :
    (st.printed ++ st.holding.toList ++ st.pending.flatten).Perm tasks.flatten := by
  induction h with
  | refl => simp [Sched.initial, Option.toList]
  | @tail mid last _ hstep ih =>
    have hmid : mid.closed = false := by
      cases hc : mid.closed with
      | false => rfl
      | true => rw [hstep.keeps_closed hc] at hopen; exact absurd hopen (by simp)
    exact (hstep.keeps_values hopen).trans (ih hmid)

/-- When every producer is done and the channel is still open, the values the
consumer has received, printed or held, are a permutation of the values of the
tasks. -/
theorem Execution.received_perm {α : Type} {zero : α} {tasks : List (List α)} {st : Sched α}
    (h : Execution zero (Sched.initial tasks) st) (hdone : ∀ t ∈ st.pending, t = [])
    (hopen : st.closed = false) : (st.printed ++ st.holding.toList).Perm tasks.flatten := by
  have hp := h.open_values hopen
  have hnil : st.pending.flatten = [] := List.flatten_eq_nil_iff.2 hdone
  rwa [hnil, List.append_nil] at hp

/-- The producers run one after the other, each value printed as soon as it is
received: an execution that ends with every producer done, the channel open and
every value printed. -/
theorem Execution.one_by_one {α : Type} (zero : α) (tasks finished : List (List α))
    (printed : List α) :
    ∃ pending, (∀ t ∈ pending, t = []) ∧
      Execution zero
        { pending := finished ++ tasks, holding := none, printed := printed, closed := false,
          exited := false }
        { pending := finished ++ pending, holding := none,
          printed := printed ++ tasks.flatten, closed := false, exited := false } := by
  induction tasks generalizing finished printed with
  | nil => exact ⟨[], by simp, by simpa using Relation.ReflTransGen.refl⟩
  | cons t ts ih =>
    induction t generalizing printed with
    | nil =>
      obtain ⟨pending, hp, hex⟩ := ih (finished ++ [[]]) printed
      refine ⟨[] :: pending, ?_, ?_⟩
      · intro u hu
        rcases List.mem_cons.1 hu with h | h
        · exact h
        · exact hp u h
      · simpa using hex
    | cons x t' iht =>
      obtain ⟨pending, hp, hex⟩ := iht (printed ++ [x])
      refine ⟨pending, hp, ?_⟩
      have h1 : Step zero
          { pending := finished ++ (x :: t') :: ts, holding := none, printed := printed,
            closed := false, exited := false }
          { pending := finished ++ t' :: ts, holding := some x, printed := printed,
            closed := false, exited := false } := Step.send finished ts x t' printed
      have h2 : Step zero
          { pending := finished ++ t' :: ts, holding := some x, printed := printed,
            closed := false, exited := false }
          { pending := finished ++ t' :: ts, holding := none, printed := printed ++ [x],
            closed := false, exited := false } := Step.print _ x printed false
      have hex' := (Relation.ReflTransGen.head h1 (Relation.ReflTransGen.head h2 hex))
      simpa using hex'

end SchedulerLemmas

section LawLemmas

open FloatOps

/-- Under the comparisons of IEEE 754 the test of line 114 is false exactly when
the value lies strictly between the bounds or is `NaN`. -/
theorem filter_false_iff {F : Type} [FloatOps F] (isNaN : F → Prop)
    (laws : CompareLaws F isNaN) (d : F) :
    (ge d (lit 54838) = false ∧ le d (lit 37) = false) ↔
      (lt (lit 37) d = true ∧ lt d (lit 54838) = true) ∨ isNaN d := by
  have h1 := laws.not_le (lit 54838) d
  have h2 := laws.not_le d (lit 37)
  have n1 := laws.lit_not_nan 54838
  have n2 := laws.lit_not_nan 37
  unfold ge
  rw [h1, h2]
  tauto

/-- Under the comparisons of IEEE 754 a pair produces a result exactly when its
separation lies strictly between the bounds or is `NaN`. -/
theorem scanPair_isSome_iff {F : Type} [FloatOps F] (isNaN : F → Prop)
    (laws : CompareLaws F isNaN) (lens : Lens F) (source : Source F) :
    (scanPair lens source).isSome = true ↔
      qualifies lens source ∨ isNaN (deltaTh lens source) := by
  rw [scanPair_isSome]
  unfold qualifies
  rw [← filter_false_iff isNaN laws]
  simp

/-- Under the comparisons of IEEE 754 a qualifying pair produces a result. -/
theorem scanPair_of_window {F : Type} [FloatOps F] (isNaN : F → Prop)
    (laws : CompareLaws F isNaN) (lens : Lens F) (source : Source F)
    (h : qualifies lens source) : ∃ r, scanPair lens source = some r :=
  Option.isSome_iff_exists.1 ((scanPair_isSome_iff isNaN laws lens source).2 (Or.inl h))

/-- The comparisons of `F64` are those of IEEE 754. -/
theorem F64.compareLaws : CompareLaws F64 (fun x => x = F64.nan) where
  not_le := by
    intro x y
    cases x <;> cases y <;> simp [F64.le, F64.lt]
  le_self := by
    intro x hx
    cases x <;> simp_all [F64.le]
  lit_not_nan := by
    intro q
    simp

/-- The sign rule of the multiplication of `F64`. -/
theorem F64.negMulLaw : NegMulLaw F64 := by
  intro a b
  cases a <;> cases b <;> simp [F64.mul, F64.neg]

/-- Multiplying by the constant `1.` in `F64`. -/
theorem F64.oneMulLaw : OneMulLaw F64 := by
  intro a
  simp [F64.one_mul]

/-- The difference of a finite value of `F64` and itself. -/
theorem F64.subSelfLaw : SubSelfLaw F64 F64.isFinite := by
  intro y hy
  cases y <;> simp_all [F64.isFinite, F64.sub, F64.neg, F64.add]

/-- The separation of the displacement `(0, 0)` in `F64`. -/
theorem F64.zeroSeparationLaw : ZeroSeparationLaw F64 := by
  simp [ZeroSeparationLaw, F64.mul, F64.add, F64.sqrt, F64.le]

/-- The arithmetic of `F64` on the positive x axis. -/
theorem F64.axisLaws : AxisLaws F64 F64.isFinite where
  sqrt_sq := by
    intro d hlo hhi
    cases d with
    | nan => simp [F64.lt] at hlo
    | pinf => simp [F64.lt] at hhi
    | ninf => simp [F64.lt] at hlo
    | fin d =>
      simp [F64.lt] at hlo
      have hd : (0 : ℝ) ≤ d := by linarith
      have hn : ¬ (d * d + 0 * 0 < 0) := by nlinarith
      have hsq : Real.sqrt (d * d + 0 * 0) = d := by
        rw [show d * d + 0 * 0 = d ^ 2 by ring]
        exact Real.sqrt_sq hd
      simp only [F64.lit_def, F64.mul_def, F64.add_def, F64.sqrt_def, F64.mul, F64.add,
        F64.sqrt, Rat.cast_zero, if_neg hn, hsq]
  atan2_zero := by
    intro d hlo
    cases d with
    | nan => simp [F64.lt] at hlo
    | pinf => simp [F64.atan2]
    | ninf => simp [F64.lt] at hlo
    | fin d =>
      simp [F64.lt] at hlo
      have harg : Complex.arg ⟨d, 0⟩ = 0 := by
        rw [Complex.arg_eq_zero_iff]
        exact ⟨by simp; linarith, rfl⟩
      simp only [F64.lit_def, F64.atan2_def, F64.atan2, Rat.cast_zero, harg]
  cos_zero := by simp [F64.mul, F64.cos]
  sin_zero := by simp [F64.mul, F64.sin]
  neg_one_mul := by
    intro a
    cases a <;> simp [F64.mul, F64.neg, F64.signedInf]
  sub_zero := by
    intro a
    cases a <;> simp [F64.sub, F64.neg, F64.add]
  zero_add := by
    intro a
    cases a <;> simp [F64.add]
  zero_mul := by
    intro a ha
    cases a <;> simp_all [F64.isFinite, F64.mul]
  neg_zero_mul := by
    intro a ha
    cases a <;> simp_all [F64.isFinite, F64.mul, F64.neg]

end LawLemmas
section C1

open FloatOps

/-! ## C1: the separation window -/

/-- C1 (as the code has it): in every float64 arithmetic whose comparisons are
those of IEEE 754, a pair produces a result exactly when its separation, as
line 113 computes it, is neither `>= 54838.0` nor `<= 37.0`, that is when
`37.0 < separation < 54838.0` or the separation is `NaN`; a pair whose
separation is exactly `37.0` or exactly `54838.0` produces no result. -/
theorem scanPair_window {F : Type} [FloatOps F] (isNaN : F → Prop)
    (laws : CompareLaws F isNaN) (lens : Lens F) (source : Source F) :
    ((scanPair lens source).isSome = true ↔
      ge (deltaTh lens source) (lit 54838) = false ∧
        le (deltaTh lens source) (lit 37) = false) ∧
    ((scanPair lens source).isSome = true ↔
      (lt (lit 37) (deltaTh lens source) = true ∧
        lt (deltaTh lens source) (lit 54838) = true) ∨
      isNaN (deltaTh lens source)) ∧
    (deltaTh lens source = lit 37 → scanPair lens source = none) ∧
    (deltaTh lens source = lit 54838 → scanPair lens source = none) := by
  have hs := scanPair_isSome lens source
  refine ⟨?_, ?_, ?_, ?_⟩
  · rw [hs]
    simp
  · rw [← filter_false_iff isNaN laws, hs]
    simp
  · intro h
    rw [← Option.not_isSome_iff_eq_none, hs, h,
      laws.le_self (lit 37) (laws.lit_not_nan 37)]
    simp
  · intro h
    have h2 : ge (lit 54838 : F) (lit 54838) = true :=
      laws.le_self (lit 54838) (laws.lit_not_nan 54838)
    rw [← Option.not_isSome_iff_eq_none, hs, h, h2]
    simp

/-- C1 (as the code has it) in `F64`, for the origin lens: the source at
`(30, 40)`, at separation `50`, produces a result, and the source at `(37, 0)`,
at separation exactly `37`, produces none. -/
theorem scanPair_window_witness :
    (scanPair lensOrigin source3040).isSome = true ∧ scanPair lensOrigin source37 = none := by
  have hX : source37.X = F64.fin (37 * Real.cos 0) := by simp [source37, mkSource]
  have hY : source37.Y = F64.fin (37 * Real.sin 0) := by simp [source37, mkSource]
  have hθ : (0 : ℝ) ∈ Set.Ioc (-Real.pi) Real.pi :=
    ⟨by linarith [Real.pi_pos], Real.pi_pos.le⟩
  obtain ⟨hd, -⟩ := origin_polar source37 37 0 (by norm_num) hθ hX hY
  refine ⟨?_, ?_⟩
  · exact (scanPair_window (fun x => x = F64.nan) F64.compareLaws lensOrigin source3040).2.1.2
      (Or.inl qualifies_source3040)
  · exact (scanPair_window (fun x => x = F64.nan) F64.compareLaws lensOrigin source37).2.2.1
      (by rw [hd]; simp)

/-- C1 (as stated) fails: with the lens at the origin and a source whose x
position is `NaN`, the separation is `NaN`, so `37.0 < separation` is false,
and yet the pair produces a result. -/
theorem scanPair_window_counterexample :
    (scanPair lensOrigin sourceNaN).isSome = true ∧
    ¬ (FloatOps.lt (FloatOps.lit 37) (deltaTh lensOrigin sourceNaN) = true ∧
        FloatOps.lt (deltaTh lensOrigin sourceNaN) (FloatOps.lit 54838) = true) := by
  have h : deltaTh lensOrigin sourceNaN = F64.nan := by
    simp [deltaTh, deltaX, deltaY, lensOrigin, sourceNaN, mkSource, F64.sub, F64.add, F64.neg,
      F64.mul, F64.sqrt]
  constructor
  · rw [scanPair_isSome, h]
    simp [F64.le]
  · rw [h]
    simp [F64.lt]

end C1
section C2

open FloatOps

/-! ## C2: the shear transform -/

/-- C2 (as the code has it): in every float64 arithmetic with the comparisons
and the sign rule of IEEE 754, a qualifying pair produces a result whose bearing
is `Phi = atan2(source.Y - lens.Y, source.X - lens.X)` and whose shear
`(EMode.Value, BMode.Value)` is the proper 2D rotation by `2*Phi` applied to
`(-shear.One.Value, shear.Two.Value)`, the shear with its first component
negated, and not to `(shear.One.Value, shear.Two.Value)`. -/
theorem shear_flipped_rotation {F : Type} [FloatOps F] (isNaN : F → Prop)
    (laws : CompareLaws F isNaN) (hneg : NegMulLaw F) (lens : Lens F) (source : Source F)
    (hq : qualifies lens source) :
    ∃ r, scanPair lens source = some r ∧
      r.Phi = atan2 (source.Y - lens.Y) (source.X - lens.X) ∧
      (r.Shear.EMode.Value, r.Shear.BMode.Value) =
        rotate (lit 2 * r.Phi) (-source.Shear.One.Value) source.Shear.Two.Value := by
  obtain ⟨r, hr⟩ := scanPair_of_window isNaN laws lens source hq
  obtain ⟨-, -, -, -, -, hPhi, hE, hB, -⟩ := scanPair_fields lens source r hr
  refine ⟨r, hr, hPhi, ?_⟩
  rw [hE, hB]
  simp only [rotate, seVal, sbVal, hneg (cos (lit 2 * r.Phi)) source.Shear.One.Value,
    hneg (sin (lit 2 * r.Phi)) source.Shear.One.Value]

/-- C2 (as the code has it) in `F64`, at the origin lens and the source at
`(30, 40)`, whose shear is `(1, 2)`: the produced shear is the rotation by
`2*Phi` of `(-1, 2)`. -/
theorem shear_flipped_rotation_witness :
    ∃ r, scanPair lensOrigin source3040 = some r ∧
      r.Phi = atan2 (F64.fin 40 - F64.fin 0) (F64.fin 30 - F64.fin 0) ∧
      (r.Shear.EMode.Value, r.Shear.BMode.Value) =
        rotate (lit 2 * r.Phi) (-F64.fin 1) (F64.fin 2) :=
  shear_flipped_rotation (fun x => x = F64.nan) F64.compareLaws F64.negMulLaw lensOrigin
    source3040 qualifies_source3040

/-- C2 (as stated) fails: for the origin lens and the source at `(100, 0)` with
shear `(1, 0)` the bearing is `0`, the determinant of the shear transform is
`-1` and not `+1`, and the rotation by `-2*bearing` sends the produced
`(EMode.Value, BMode.Value) = (-1, 0)` to `(-1, 0)`, not back to `(1, 0)`. -/
theorem shear_rotation_counterexample :
    ∃ r, scanPair lensOrigin sourceAxis = some r ∧
      r.Phi = F64.fin 0 ∧
      shearDet r.Phi ≠ lit 1 ∧
      rotate (-(lit 2 * r.Phi)) r.Shear.EMode.Value r.Shear.BMode.Value ≠
        (sourceAxis.Shear.One.Value, sourceAxis.Shear.Two.Value) := by
  have hX : sourceAxis.X = F64.fin (100 * Real.cos 0) := by simp [sourceAxis, mkSource]
  have hY : sourceAxis.Y = F64.fin (100 * Real.sin 0) := by simp [sourceAxis, mkSource]
  have hθ : (0 : ℝ) ∈ Set.Ioc (-Real.pi) Real.pi :=
    ⟨by linarith [Real.pi_pos], Real.pi_pos.le⟩
  have hq : qualifies lensOrigin sourceAxis :=
    qualifies_polar sourceAxis 100 0 (by norm_num) (by norm_num) hθ hX hY
  obtain ⟨-, hphi⟩ := origin_polar sourceAxis 100 0 (by norm_num) hθ hX hY
  obtain ⟨r, hr⟩ := scanPair_of_qualifies lensOrigin sourceAxis hq
  obtain ⟨-, -, -, -, -, hPhi, hE, hB, -⟩ := scanPair_fields lensOrigin sourceAxis r hr
  rw [hphi] at hPhi
  have hs1 : sourceAxis.Shear.One.Value = F64.fin 1 := rfl
  have hs2 : sourceAxis.Shear.Two.Value = F64.fin 0 := rfl
  refine ⟨r, hr, hPhi, ?_, ?_⟩
  · rw [hPhi]
    simp [shearDet, seVal_fin, sbVal_fin, F64.mul, F64.sub, F64.neg, F64.add]
    norm_num
  · rw [hE, hB, hPhi, hs1, hs2]
    simp [rotate, seVal_fin, sbVal_fin, F64.mul, F64.sub, F64.neg, F64.add, F64.cos, F64.sin]
    norm_num

end C2

section C6to9

open FloatOps

/-! ## C6 to C9: the values of a result -/

/-- C6: in every float64 arithmetic with the comparisons of IEEE 754, a
qualifying pair produces a result whose bearing is
`Phi = atan2(source.Y - lens.Y, source.X - lens.X)` and whose shear values are
`EMode.Value = -cos(2*Phi)*One.Value - sin(2*Phi)*Two.Value` and
`BMode.Value = -sin(2*Phi)*One.Value + cos(2*Phi)*Two.Value`, taken on the
source's shear. -/
theorem shear_values {F : Type} [FloatOps F] (isNaN : F → Prop) (laws : CompareLaws F isNaN)
    (lens : Lens F) (source : Source F) (h : qualifies lens source) :
    ∃ r, scanPair lens source = some r ∧
      r.Phi = atan2 (source.Y - lens.Y) (source.X - lens.X) ∧
      r.Shear.EMode.Value =
        -cos (lit 2 * r.Phi) * source.Shear.One.Value
          - sin (lit 2 * r.Phi) * source.Shear.Two.Value ∧
      r.Shear.BMode.Value =
        -sin (lit 2 * r.Phi) * source.Shear.One.Value
          + cos (lit 2 * r.Phi) * source.Shear.Two.Value := by
  obtain ⟨r, hr⟩ := scanPair_of_window isNaN laws lens source h
  obtain ⟨-, -, -, -, -, hPhi, hE, hB, -⟩ := scanPair_fields lens source r hr
  exact ⟨r, hr, hPhi, by rw [hE]; rfl, by rw [hB]; rfl⟩

/-- C6 in `F64`, at the origin lens and the source at `(30, 40)`, whose shear is
`(1, 2)`. -/
theorem shear_values_witness :
    ∃ r, scanPair lensOrigin source3040 = some r ∧
      r.Phi = atan2 (F64.fin 40 - F64.fin 0) (F64.fin 30 - F64.fin 0) ∧
      r.Shear.EMode.Value =
        -cos (lit 2 * r.Phi) * F64.fin 1 - sin (lit 2 * r.Phi) * F64.fin 2 ∧
      r.Shear.BMode.Value =
        -sin (lit 2 * r.Phi) * F64.fin 1 + cos (lit 2 * r.Phi) * F64.fin 2 :=
  shear_values (fun x => x = F64.nan) F64.compareLaws lensOrigin source3040
    qualifies_source3040

/-- C7: in every float64 arithmetic with the comparisons of IEEE 754, a
qualifying pair produces a result whose bearing is
`Phi = atan2(source.Y - lens.Y, source.X - lens.X)` and whose flexion-G values
are `EMode.Value = (-cos(3*Phi)*g1 - sin(3*Phi)*g2) / 0.186` and
`BMode.Value = (-sin(3*Phi)*g1 - cos(3*Phi)*g2) / 0.186`, with a minus before
the cosine term of the B-mode, where `g1`, `g2` are the source's flexion-G
component values. -/
theorem flexionG_values {F : Type} [FloatOps F] (isNaN : F → Prop)
    (laws : CompareLaws F isNaN) (lens : Lens F) (source : Source F)
    (h : qualifies lens source) :
    ∃ r, scanPair lens source = some r ∧
      r.Phi = atan2 (source.Y - lens.Y) (source.X - lens.X) ∧
      r.FlexionG.EMode.Value =
        (-cos (lit 3 * r.Phi) * source.FlexionG.One.Value
          - sin (lit 3 * r.Phi) * source.FlexionG.Two.Value) / lit 0.186 ∧
      r.FlexionG.BMode.Value =
        (-sin (lit 3 * r.Phi) * source.FlexionG.One.Value
          - cos (lit 3 * r.Phi) * source.FlexionG.Two.Value) / lit 0.186 := by
  obtain ⟨r, hr⟩ := scanPair_of_window isNaN laws lens source h
  obtain ⟨-, -, -, -, -, hPhi, -, -, -, -, hE, hB⟩ := scanPair_fields lens source r hr
  exact ⟨r, hr, hPhi, by rw [hE]; rfl, by rw [hB]; rfl⟩

/-- C7 in `F64`, at the origin lens and the source at `(30, 40)`, whose
flexion-G is `(5, 6)`. -/
theorem flexionG_values_witness :
    ∃ r, scanPair lensOrigin source3040 = some r ∧
      r.Phi = atan2 (F64.fin 40 - F64.fin 0) (F64.fin 30 - F64.fin 0) ∧
      r.FlexionG.EMode.Value =
        (-cos (lit 3 * r.Phi) * F64.fin 5 - sin (lit 3 * r.Phi) * F64.fin 6) / lit 0.186 ∧
      r.FlexionG.BMode.Value =
        (-sin (lit 3 * r.Phi) * F64.fin 5 - cos (lit 3 * r.Phi) * F64.fin 6) / lit 0.186 :=
  flexionG_values (fun x => x = F64.nan) F64.compareLaws lensOrigin source3040
    qualifies_source3040

/-- C8: in every float64 arithmetic with the comparisons of IEEE 754 and with
`1.*x = x`, a qualifying pair produces a result whose bearing is
`Phi = atan2(source.Y - lens.Y, source.X - lens.X)` and whose flexion-F values
follow the shear pattern with angle multiplier 1, divided by `0.186`:
`EMode.Value = (-cos(Phi)*f1 - sin(Phi)*f2) / 0.186` and
`BMode.Value = (-sin(Phi)*f1 + cos(Phi)*f2) / 0.186`, where `f1`, `f2` are the
source's flexion-F component values. -/
theorem flexionF_values {F : Type} [FloatOps F] (isNaN : F → Prop)
    (laws : CompareLaws F isNaN) (hone : OneMulLaw F) (lens : Lens F) (source : Source F)
    (h : qualifies lens source) :
    ∃ r, scanPair lens source = some r ∧
      r.Phi = atan2 (source.Y - lens.Y) (source.X - lens.X) ∧
      r.FlexionF.EMode.Value =
        (-cos r.Phi * source.FlexionF.One.Value
          - sin r.Phi * source.FlexionF.Two.Value) / lit 0.186 ∧
      r.FlexionF.BMode.Value =
        (-sin r.Phi * source.FlexionF.One.Value
          + cos r.Phi * source.FlexionF.Two.Value) / lit 0.186 := by
  obtain ⟨r, hr⟩ := scanPair_of_window isNaN laws lens source h
  obtain ⟨-, -, -, -, -, hPhi, -, -, hE, hB, -⟩ := scanPair_fields lens source r hr
  have h1 : (lit 1 : F) * r.Phi = r.Phi := hone r.Phi
  refine ⟨r, hr, hPhi, ?_, ?_⟩
  · rw [hE]
    simp only [feVal, h1]
  · rw [hB]
    simp only [fbVal, h1]

/-- C8 in `F64`, at the origin lens and the source at `(30, 40)`, whose
flexion-F is `(3, 4)`. -/
theorem flexionF_values_witness :
    ∃ r, scanPair lensOrigin source3040 = some r ∧
      r.Phi = atan2 (F64.fin 40 - F64.fin 0) (F64.fin 30 - F64.fin 0) ∧
      r.FlexionF.EMode.Value =
        (-cos r.Phi * F64.fin 3 - sin r.Phi * F64.fin 4) / lit 0.186 ∧
      r.FlexionF.BMode.Value =
        (-sin r.Phi * F64.fin 3 + cos r.Phi * F64.fin 4) / lit 0.186 :=
  flexionF_values (fun x => x = F64.nan) F64.compareLaws F64.oneMulLaw lensOrigin source3040
    qualifies_source3040

/-- C9: a qualifying pair produces a result in which, for shear, flexion-F and
flexion-G alike, `EMode.SDev` is the source's `One.SDev` and `BMode.SDev` is the
source's `Two.SDev`, whatever the bearing and without division by `0.186`. -/
theorem sdev_carried_through (lens : Lens F64) (source : Source F64)
    (h : qualifies lens source) :
    ∃ r, scanPair lens source = some r ∧
      r.Shear.EMode.SDev = source.Shear.One.SDev ∧
      r.Shear.BMode.SDev = source.Shear.Two.SDev ∧
      r.FlexionF.EMode.SDev = source.FlexionF.One.SDev ∧
      r.FlexionF.BMode.SDev = source.FlexionF.Two.SDev ∧
      r.FlexionG.EMode.SDev = source.FlexionG.One.SDev ∧
      r.FlexionG.BMode.SDev = source.FlexionG.Two.SDev := by
  obtain ⟨r, hr⟩ := scanPair_of_qualifies lens source h
  obtain ⟨-, -, -, -, -, -, h1, h2, h3, h4, h5, h6⟩ := scanPair_fields lens source r hr
  exact ⟨r, hr, by rw [h1], by rw [h2], by rw [h3], by rw [h4], by rw [h5], by rw [h6]⟩

/-- C9 at the origin lens and the source at `(30, 40)`. -/
theorem sdev_carried_through_witness :
    ∃ r, scanPair lensOrigin source3040 = some r ∧
      r.Shear.EMode.SDev = source3040.Shear.One.SDev ∧
      r.Shear.BMode.SDev = source3040.Shear.Two.SDev ∧
      r.FlexionF.EMode.SDev = source3040.FlexionF.One.SDev ∧
      r.FlexionF.BMode.SDev = source3040.FlexionF.Two.SDev ∧
      r.FlexionG.EMode.SDev = source3040.FlexionG.One.SDev ∧
      r.FlexionG.BMode.SDev = source3040.FlexionG.Two.SDev :=
  sdev_carried_through lensOrigin source3040 qualifies_source3040

end C6to9

section C10

open FloatOps

/-! ## C10: classification of a catalogue line -/

/-- C10 fails on the code: the line `7 0 0 5 0` is no comment and its flux `5`
parses and is not above the threshold, so the line is classified as a Source;
`getSourceData` then reads column 13 of a slice of five tokens and the program
panics, and the line is added to neither slice.  The same happens in every
float64 arithmetic and with every parser for which the flux of that line parses
to a value not above the threshold.  What does hold, in every float64
arithmetic: a line that is no comment and whose flux parses is added to the
Lens slice only when `flux.Value > 1011.830`, and otherwise, when it has 25 or
more tokens, to the Source slice only; a line starting with `#` leaves both
slices as they are. -/
theorem ingestLine_short_source :
    (hasPrefix shortLine "#" = false ∧
      getMeasurement parseDigits (fields shortLine) "flux" 3 4 =
        some (.ok ⟨F64.fin 5, F64.fin 0⟩) ∧
      gt (F64.fin 5) (lit 1011.830 : F64) = false ∧
      ingestLine parseDigits atoiDigits { lenses := [], sources := [] } shortLine = none) ∧
    (∀ (F : Type) [FloatOps F] (parseFloat : String → Option F) (atoi : String → Int)
        (cat : Catalog F) (flux : Measurement F),
      getMeasurement parseFloat (fields shortLine) "flux" 3 4 = some (.ok flux) →
      gt flux.Value (lit 1011.830) = false →
      ingestLine parseFloat atoi cat shortLine = none) ∧
    (∀ (F : Type) [FloatOps F] (parseFloat : String → Option F) (atoi : String → Int)
        (cat : Catalog F) (line : String) (flux : Measurement F),
      hasPrefix line "#" = false →
      getMeasurement parseFloat (fields line) "flux" 3 4 = some (.ok flux) →
      (gt flux.Value (lit 1011.830) = true →
        ∃ lens, getLensData parseFloat atoi (fields line) = some lens ∧
          ingestLine parseFloat atoi cat line =
            some { lenses := cat.lenses ++ [lens], sources := cat.sources }) ∧
      (gt flux.Value (lit 1011.830) = false → 25 ≤ (fields line).length →
        ∃ source, getSourceData parseFloat atoi (fields line) = some source ∧
          ingestLine parseFloat atoi cat line =
            some { lenses := cat.lenses, sources := cat.sources ++ [source] })) ∧
    (∀ (F : Type) [FloatOps F] (parseFloat : String → Option F) (atoi : String → Int)
        (cat : Catalog F) (other : String),
      hasPrefix other "#" = true → ingestLine parseFloat atoi cat other = some cat) := by
  have hf : fields shortLine = ["7", "0", "0", "5", "0"] := by decide
  have hc : hasPrefix shortLine "#" = false := by decide
  have hflux : getMeasurement parseDigits (fields shortLine) "flux" 3 4 =
      some (.ok ⟨F64.fin 5, F64.fin 0⟩) := by
    rw [hf]
    simp [getMeasurement, index, parseDigits]
  have hgt : gt (F64.fin 5) (lit 1011.830 : F64) = false := by
    simp only [F64.gt_def, F64.lit_def, F64.lt, decide_eq_false_iff_not]
    norm_num
  have hpanic : ∀ (F : Type) [FloatOps F] (parseFloat : String → Option F)
      (atoi : String → Int) (cat : Catalog F) (flux : Measurement F),
      getMeasurement parseFloat (fields shortLine) "flux" 3 4 = some (.ok flux) →
      gt flux.Value (lit 1011.830) = false →
      ingestLine parseFloat atoi cat shortLine = none := by
    intro F _ parseFloat atoi cat flux hfl hg
    have hs : getSourceData parseFloat atoi (fields shortLine) = none := by
      rw [hf]
      cases h0 : parseFloat "0" <;>
        simp [getSourceData, getPosition, getShear, getMeasurement, index, h0]
    simp only [ingestLine, hc, hfl, hg, hs, Bool.false_eq_true, if_false]
  refine ⟨⟨hc, hflux, hgt, hpanic F64 parseDigits atoiDigits _ _ hflux hgt⟩, hpanic, ?_, ?_⟩
  · intro F _ parseFloat atoi cat line flux hcl hfl
    have hlen : (4 : Int) < (fields line).length :=
      length_of_getMeasurement_ok parseFloat (fields line) "flux" 3 4 flux (by decide) hfl
    constructor
    · intro hg
      obtain ⟨lens, hl⟩ := getLensData_no_panic parseFloat atoi (fields line) (by omega)
      exact ⟨lens, hl, by
        simp only [ingestLine, hcl, hfl, hg, hl, Bool.false_eq_true, if_false, if_true]⟩
    · intro hg h25
      obtain ⟨source, hs⟩ := getSourceData_no_panic parseFloat atoi (fields line) h25
      exact ⟨source, hs, by
        simp only [ingestLine, hcl, hfl, hg, hs, Bool.false_eq_true, if_false, if_true]⟩
  · intro F _ parseFloat atoi cat other ho
    simp [ingestLine, ho]

end C10
section C11

open FloatOps

/-! ## C11: the counts after ingestion -/

/-- C11: whenever ingestion reaches the report of line 98 with the catalogue
`cat`, `len(lenses) + len(sources)` is the number of lines that are no comment
and whose flux parsed; it does reach the report when every line is a comment or
has 25 or more tokens; and a line whose flux cannot be parsed leaves both
slices as they are. -/
theorem ingest_counts (parseFloat : String → Option F64) (atoi : String → Int)
    (lines : List String) :
    (∀ cat, ingest parseFloat atoi lines = some cat →
      cat.lenses.length + cat.sources.length =
        (lines.filter (fluxParsed parseFloat)).length) ∧
    ((∀ line ∈ lines, hasPrefix line "#" = true ∨ 25 ≤ (fields line).length) →
      ∃ cat, ingest parseFloat atoi lines = some cat) ∧
    (∀ (cat : Catalog F64) (line msg : String), hasPrefix line "#" = false →
      getMeasurement parseFloat (fields line) "flux" 3 4 = some (.error msg) →
      ingestLine parseFloat atoi cat line = some cat) := by
  refine ⟨?_, ?_, ?_⟩
  · intro cat h
    have := foldlM_ingestLine_counts parseFloat atoi lines { lenses := [], sources := [] } cat h
    simpa using this
  · intro h
    exact foldlM_ingestLine_no_panic parseFloat atoi lines { lenses := [], sources := [] } h
  · intro cat line msg hc hm
    simp [ingestLine, hc, hm]

/-- C11 on a catalogue of a comment, a line with unparsable flux, a lens and a
source: ingestion completes and counts two records. -/
theorem ingest_counts_witness :
    ∃ cat, ingest parseDigits atoiDigits exampleCatalog = some cat ∧
      cat.lenses.length + cat.sources.length = 2 := by
  obtain ⟨hcount, hdone, -⟩ := ingest_counts parseDigits atoiDigits exampleCatalog
  have hlong : ∀ line ∈ exampleCatalog,
      hasPrefix line "#" = true ∨ 25 ≤ (fields line).length := by
    intro line hl
    simp only [exampleCatalog, List.mem_cons, List.mem_singleton, List.not_mem_nil,
      or_false] at hl
    rcases hl with rfl | rfl | rfl | rfl <;> decide
  obtain ⟨cat, hcat⟩ := hdone hlong
  refine ⟨cat, hcat, ?_⟩
  rw [hcount cat hcat]
  have h0 : fluxParsed parseDigits "# catalogue" = false := by
    simp [fluxParsed, hasPrefix]
  have hb : fields badFluxLongLine =
      ["9", "0", "0", "x", "0", "0", "0", "0", "0", "0", "0", "0", "0", "0", "0", "0", "0",
       "0", "0", "0", "0", "0", "0", "0", "0"] := by decide
  have hl : fields lensLine =
      ["1", "0", "0", "2000", "0", "0", "0", "0", "0", "0", "0", "0", "0", "0", "0", "0", "0",
       "0", "0", "0", "0", "0", "0", "0", "0"] := by decide
  have h1 : fluxParsed parseDigits badFluxLongLine = false := by
    have hc : hasPrefix badFluxLongLine "#" = false := by decide
    simp [fluxParsed, hc, hb, getMeasurement, index, parseDigits]
  have h2 : fluxParsed parseDigits lensLine = true := by
    have hc : hasPrefix lensLine "#" = false := by decide
    simp [fluxParsed, hc, hl, getMeasurement, index, parseDigits]
  have h3 : fluxParsed parseDigits sourceLine = true := by
    have hc : hasPrefix sourceLine "#" = false := by decide
    simp [fluxParsed, hc, fields_sourceLine, getMeasurement, index, parseDigits]
  simp [exampleCatalog, List.filter, h0, h1, h2, h3]

end C11

section C12

open FloatOps

/-! ## C12: parse failures inside a Source record -/

/-- C12: a line that is no comment, has 25 or more tokens and a parsed flux
that is not above the threshold is added exactly once to the Source slice.  In
the record added, the position is the parsed pair of columns 1 and 2 when both
parse and `(0, 0)` when either fails; `Shear` holds the parsed columns 13 to 16
when all four parse and is `Shear{}` when any of them fails; likewise
`FlexionF` with columns 17 to 20 and `FlexionG` with columns 21 to 24.  Each
sub-structure depends on its own columns only. -/
theorem source_substructures (parseFloat : String → Option F64) (atoi : String → Int)
    (cat : Catalog F64) (line : String) (flux : Measurement F64)
    (hc : hasPrefix line "#" = false)
    (hflux : getMeasurement parseFloat (fields line) "flux" 3 4 = some (.ok flux))
    (hgt : gt flux.Value (lit 1011.830) = false)
    (h25 : 25 ≤ (fields line).length) :
    ∃ s, ingestLine parseFloat atoi cat line =
        some { lenses := cat.lenses, sources := cat.sources ++ [s] } ∧
      ((column parseFloat (fields line) 1 = none ∨ column parseFloat (fields line) 2 = none) →
        s.X = lit 0 ∧ s.Y = lit 0) ∧
      (∀ x y, column parseFloat (fields line) 1 = some x →
        column parseFloat (fields line) 2 = some y → s.X = x ∧ s.Y = y) ∧
      ((column parseFloat (fields line) 13 = none ∨ column parseFloat (fields line) 14 = none ∨
          column parseFloat (fields line) 15 = none ∨
          column parseFloat (fields line) 16 = none) →
        s.Shear = Shear.zero) ∧
      (∀ a b c d, column parseFloat (fields line) 13 = some a →
        column parseFloat (fields line) 14 = some b →
        column parseFloat (fields line) 15 = some c →
        column parseFloat (fields line) 16 = some d →
        s.Shear = { One := ⟨a, b⟩, Two := ⟨c, d⟩,
                    EMode := Measurement.zero, BMode := Measurement.zero }) ∧
      ((column parseFloat (fields line) 17 = none ∨ column parseFloat (fields line) 18 = none ∨
          column parseFloat (fields line) 19 = none ∨
          column parseFloat (fields line) 20 = none) →
        s.FlexionF = FlexionF.zero) ∧
      (∀ a b c d, column parseFloat (fields line) 17 = some a →
        column parseFloat (fields line) 18 = some b →
        column parseFloat (fields line) 19 = some c →
        column parseFloat (fields line) 20 = some d →
        s.FlexionF = { One := ⟨a, b⟩, Two := ⟨c, d⟩,
                       EMode := Measurement.zero, BMode := Measurement.zero }) ∧
      ((column parseFloat (fields line) 21 = none ∨ column parseFloat (fields line) 22 = none ∨
          column parseFloat (fields line) 23 = none ∨
          column parseFloat (fields line) 24 = none) →
        s.FlexionG = FlexionG.zero) ∧
      (∀ a b c d, column parseFloat (fields line) 21 = some a →
        column parseFloat (fields line) 22 = some b →
        column parseFloat (fields line) 23 = some c →
        column parseFloat (fields line) 24 = some d →
        s.FlexionG = { One := ⟨a, b⟩, Two := ⟨c, d⟩,
                       EMode := Measurement.zero, BMode := Measurement.zero }) := by
  obtain ⟨id, p, shear, flexionF, flexionG, -, hp, hs, hf, hg, hsrc⟩ :=
    getSourceData_eq parseFloat atoi (fields line) h25
  refine ⟨{ ID := atoi id, X := p.1, Y := p.2, Shear := shear, FlexionF := flexionF,
            FlexionG := flexionG },
    by simp only [ingestLine, hc, hflux, hgt, hsrc, Bool.false_eq_true, if_false],
    ?_, ?_, ?_, ?_, ?_, ?_, ?_, ?_⟩
  · intro hnone
    rcases getPosition_cases parseFloat (fields line) (by omega) with
      ⟨x, y, hx, hy, h⟩ | ⟨-, h⟩
    · rcases hnone with h1 | h2
      · rw [hx] at h1; exact absurd h1 (by simp)
      · rw [hy] at h2; exact absurd h2 (by simp)
    · rw [hp] at h
      simp only [Option.some.injEq] at h
      subst h
      exact ⟨rfl, rfl⟩
  · intro x y hx hy
    rcases getPosition_cases parseFloat (fields line) (by omega) with
      ⟨x', y', hx', hy', h⟩ | ⟨hnone, -⟩
    · rw [hp] at h
      simp only [Option.some.injEq] at h
      subst h
      rw [hx] at hx'
      rw [hy] at hy'
      simp only [Option.some.injEq] at hx' hy'
      exact ⟨hx'.symm, hy'.symm⟩
    · rcases hnone with h1 | h2
      · rw [hx] at h1; exact absurd h1 (by simp)
      · rw [hy] at h2; exact absurd h2 (by simp)
  · intro hnone
    rcases getShear_cases parseFloat (fields line) (by omega) with
      ⟨a, b, c, d, ha, hb, hc', hd, h⟩ | ⟨-, h⟩
    · rw [ha, hb, hc', hd] at hnone
      simp at hnone
    · rw [hs] at h
      simp only [Option.some.injEq] at h
      exact h
  · intro a b c d ha hb hc' hd
    rcases getShear_cases parseFloat (fields line) (by omega) with
      ⟨a', b', c', d', ha', hb', hc'', hd', h⟩ | ⟨hnone, -⟩
    · rw [hs] at h
      simp only [Option.some.injEq] at h
      rw [ha] at ha'; rw [hb] at hb'; rw [hc'] at hc''; rw [hd] at hd'
      simp only [Option.some.injEq] at ha' hb' hc'' hd'
      rw [h, ha', hb', hc'', hd']
    · rw [ha, hb, hc', hd] at hnone
      simp at hnone
  · intro hnone
    rcases getFlexionF_cases parseFloat (fields line) (by omega) with
      ⟨a, b, c, d, ha, hb, hc', hd, h⟩ | ⟨-, h⟩
    · rw [ha, hb, hc', hd] at hnone
      simp at hnone
    · rw [hf] at h
      simp only [Option.some.injEq] at h
      exact h
  · intro a b c d ha hb hc' hd
    rcases getFlexionF_cases parseFloat (fields line) (by omega) with
      ⟨a', b', c', d', ha', hb', hc'', hd', h⟩ | ⟨hnone, -⟩
    · rw [hf] at h
      simp only [Option.some.injEq] at h
      rw [ha] at ha'; rw [hb] at hb'; rw [hc'] at hc''; rw [hd] at hd'
      simp only [Option.some.injEq] at ha' hb' hc'' hd'
      rw [h, ha', hb', hc'', hd']
    · rw [ha, hb, hc', hd] at hnone
      simp at hnone
  · intro hnone
    rcases getFlexionG_cases parseFloat (fields line) h25 with
      ⟨a, b, c, d, ha, hb, hc', hd, h⟩ | ⟨-, h⟩
    · rw [ha, hb, hc', hd] at hnone
      simp at hnone
    · rw [hg] at h
      simp only [Option.some.injEq] at h
      exact h
  · intro a b c d ha hb hc' hd
    rcases getFlexionG_cases parseFloat (fields line) h25 with
      ⟨a', b', c', d', ha', hb', hc'', hd', h⟩ | ⟨hnone, -⟩
    · rw [hg] at h
      simp only [Option.some.injEq] at h
      rw [ha] at ha'; rw [hb] at hb'; rw [hc'] at hc''; rw [hd] at hd'
      simp only [Option.some.injEq] at ha' hb' hc'' hd'
      rw [h, ha', hb', hc'', hd']
    · rw [ha, hb, hc', hd] at hnone
      simp at hnone

/-- C12 on a line of 25 tokens at `(100, 0)` whose column 15 (shear 2) is `x`
while shear 1 is `(1, 0)`: the line becomes one Source, its `Shear` is zero as
a whole, and its position and `FlexionF` hold the parsed values. -/
theorem source_substructures_witness :
    ∃ s, ingestLine parseDigits atoiDigits { lenses := [], sources := [] } badShearLine =
        some { lenses := [], sources := [s] } ∧
      s.Shear = Shear.zero ∧ s.X = F64.fin 100 ∧ s.Y = F64.fin 0 ∧
      s.FlexionF = { One := ⟨F64.fin 3, F64.fin 0⟩, Two := ⟨F64.fin 4, F64.fin 0⟩,
                     EMode := Measurement.zero, BMode := Measurement.zero } := by
  have hf : fields badShearLine =
      ["2", "100", "0", "5", "0", "0", "0", "0", "0", "0", "0", "0", "0", "1", "0", "x", "0",
       "3", "0", "4", "0", "5", "0", "6", "0"] := by decide
  have hflux : getMeasurement parseDigits (fields badShearLine) "flux" 3 4 =
      some (.ok ⟨F64.fin 5, F64.fin 0⟩) := by
    rw [hf]
    simp [getMeasurement, index, parseDigits]
  have hgt : gt (F64.fin 5) (lit 1011.830 : F64) = false := by
    simp only [F64.gt_def, F64.lit_def, F64.lt, decide_eq_false_iff_not]
    norm_num
  obtain ⟨s, hs, -, hpos, hshear, -, -, hflex, -⟩ :=
    source_substructures parseDigits atoiDigits { lenses := [], sources := [] } badShearLine
      ⟨F64.fin 5, F64.fin 0⟩ (by decide) hflux hgt (by decide)
  have h15 : column parseDigits (fields badShearLine) 15 = none := by
    rw [hf]; simp [column, index, parseDigits]
  have hxy := hpos (F64.fin 100) (F64.fin 0)
    (by rw [hf]; simp [column, index, parseDigits])
    (by rw [hf]; simp [column, index, parseDigits])
  have hF := hflex (F64.fin 3) (F64.fin 0) (F64.fin 4) (F64.fin 0)
    (by rw [hf]; simp [column, index, parseDigits])
    (by rw [hf]; simp [column, index, parseDigits])
    (by rw [hf]; simp [column, index, parseDigits])
    (by rw [hf]; simp [column, index, parseDigits])
  exact ⟨s, hs, hshear (Or.inr (Or.inr (Or.inl h15))), hxy.1, hxy.2, hF⟩

end C12

section C13

open FloatOps

/-! ## C13: ingestion does not always run to completion -/

/-- C13 fails on the code: a catalogue that holds a blank line, or the line
`1 2 3` of three tokens, makes the reading loop panic with an index out of
range whatever the parser and whatever the lines before and after it; so does
the line `7 0 0 5 0`, classified as a Source and read at column 13.  The
catalogue read so far is lost and no counts are reported. -/
theorem ingest_aborts (parseFloat : String → Option F64) (atoi : String → Int)
    (before after : List String) :
    ingest parseFloat atoi (before ++ "" :: after) = none ∧
    ingest parseFloat atoi (before ++ "1 2 3" :: after) = none ∧
    ingest parseDigits atoiDigits (before ++ shortLine :: after) = none ∧
    ingest parseDigits atoiDigits [sourceLine, ""] = none :=
  ⟨foldlM_ingestLine_panics parseFloat atoi "" (ingestLine_blank parseFloat atoi) before after _,
   foldlM_ingestLine_panics parseFloat atoi "1 2 3" (ingestLine_three_tokens parseFloat atoi)
     before after _,
   foldlM_ingestLine_panics parseDigits atoiDigits shortLine ingestLine_shortLine before after _,
   foldlM_ingestLine_panics parseDigits atoiDigits "" (ingestLine_blank parseDigits atoiDigits)
     [sourceLine] [] _⟩

end C13

section C14

open FloatOps

/-! ## C14: when `getMeasurement` fails -/

/-- C14: on a tokenized line that holds the object id `id`, the value token
`tok` at `valPos` and, when `errPos > 0`, the uncertainty token `etok` at
`errPos`, `getMeasurement` does not panic and fails exactly when `tok` is not
parseable, or `errPos > 0` and `etok` is not parseable; the error text then is
`object <id>: could not parse <token> as <name>` (followed by ` error` for the
uncertainty), so it contains the id, the offending token and the field name; on
success the result is the parsed value with the parsed uncertainty, or with
uncertainty `0` when `errPos` is not positive. -/
theorem getMeasurement_fails_iff (parseFloat : String → Option F64) (fs : List String)
    (name : String) (valPos errPos : Int) (id tok etok : String)
    (hid : index fs 0 = some id) (htok : index fs valPos = some tok)
    (hetok : errPos > 0 → index fs errPos = some etok) :
    ∃ res, getMeasurement parseFloat fs name valPos errPos = some res ∧
      ((∃ e, res = .error e) ↔
        parseFloat tok = none ∨ (errPos > 0 ∧ parseFloat etok = none)) ∧
      (parseFloat tok = none →
        res = .error ("object " ++ id ++ ": could not parse `" ++ tok ++ "` as " ++ name)) ∧
      (∀ v, parseFloat tok = some v → errPos > 0 → parseFloat etok = none →
        res = .error ("object " ++ id ++ ": could not parse `" ++ etok ++ "` as "
          ++ name ++ " error")) ∧
      (∀ e, res = .error e →
        (∃ pre post : String, e = pre ++ id ++ post) ∧
        (∃ pre post : String, e = pre ++ name ++ post) ∧
        ((parseFloat tok = none ∧ ∃ pre post : String, e = pre ++ tok ++ post) ∨
         (parseFloat etok = none ∧ ∃ pre post : String, e = pre ++ etok ++ post))) ∧
      (∀ v s, parseFloat tok = some v → errPos > 0 → parseFloat etok = some s →
        res = .ok ⟨v, s⟩) ∧
      (∀ v, parseFloat tok = some v → ¬ errPos > 0 → res = .ok ⟨v, lit 0⟩) := by
  cases hp : parseFloat tok with
  | none =>
    refine ⟨.error ("object " ++ id ++ ": could not parse `" ++ tok ++ "` as " ++ name),
      by simp [getMeasurement, htok, hp, hid], ?_, ?_, ?_, ?_, ?_, ?_⟩
    · simp
    · intro _; rfl
    · intro v hv; exact absurd hv (by simp)
    · intro e he
      simp only [Except.error.injEq] at he
      subst he
      refine ⟨⟨"object ", ": could not parse `" ++ tok ++ "` as " ++ name, ?_⟩,
        ⟨"object " ++ id ++ ": could not parse `" ++ tok ++ "` as ", "", ?_⟩,
        Or.inl ⟨rfl, "object " ++ id ++ ": could not parse `", "` as " ++ name, ?_⟩⟩
      · simp [String.append_assoc]
      · simp [String.append_assoc]
      · simp [String.append_assoc]
    · intro v s hv; exact absurd hv (by simp)
    · intro v hv; exact absurd hv (by simp)
  | some value =>
    by_cases hpos : errPos > 0
    · have he := hetok hpos
      cases hq : parseFloat etok with
      | none =>
        refine ⟨.error ("object " ++ id ++ ": could not parse `" ++ etok ++ "` as "
            ++ name ++ " error"),
          by simp [getMeasurement, htok, hp, hpos, he, hq, hid], ?_, ?_, ?_, ?_, ?_, ?_⟩
        · simp [hpos]
        · intro h; exact absurd h (by simp)
        · intro v _ _ _; rfl
        · intro e hE
          simp only [Except.error.injEq] at hE
          subst hE
          refine ⟨⟨"object ",
              ": could not parse `" ++ etok ++ "` as " ++ name ++ " error", ?_⟩,
            ⟨"object " ++ id ++ ": could not parse `" ++ etok ++ "` as ", " error", ?_⟩,
            Or.inr ⟨rfl, "object " ++ id ++ ": could not parse `",
              "` as " ++ name ++ " error", ?_⟩⟩
          · simp [String.append_assoc]
          · simp [String.append_assoc]
          · simp [String.append_assoc]
        · intro v s _ _ hs; exact absurd hs (by simp)
        · intro v _ hn; exact absurd hpos hn
      | some sDev =>
        refine ⟨.ok ⟨value, sDev⟩,
          by simp [getMeasurement, htok, hp, hpos, he, hq], ?_, ?_, ?_, ?_, ?_, ?_⟩
        · simp
        · intro h; exact absurd h (by simp)
        · intro v _ _ h; exact absurd h (by simp)
        · intro e hE; exact absurd hE (by simp)
        · intro v s hv _ hs
          simp only [Option.some.injEq] at hv hs
          rw [hv, hs]
        · intro v _ hn; exact absurd hpos hn
    · refine ⟨.ok ⟨value, lit 0⟩,
        by simp [getMeasurement, htok, hp, hpos], ?_, ?_, ?_, ?_, ?_, ?_⟩
      · simp [hpos]
      · intro h; exact absurd h (by simp)
      · intro v _ hp' ; exact absurd hp' hpos
      · intro e hE; exact absurd hE (by simp)
      · intro v s _ hp'; exact absurd hp' hpos
      · intro v hv _
        simp only [Option.some.injEq] at hv
        rw [hv]

/-- C14 on the line `7 0 0 x 0`: reading the flux fails with the text
`object 7: could not parse <x> as flux`. -/
theorem getMeasurement_fails_iff_witness :
    getMeasurement parseDigits (fields badFluxLine) "flux" 3 4 =
      some (.error "object 7: could not parse `x` as flux") := by
  have hf : fields badFluxLine = ["7", "0", "0", "x", "0"] := by decide
  have hx : parseDigits "x" = none := by simp [parseDigits]
  obtain ⟨res, hres, -, herr, -⟩ :=
    getMeasurement_fails_iff parseDigits (fields badFluxLine) "flux" 3 4 "7" "x" "0"
      (by rw [hf]; rfl) (by rw [hf]; rfl) (fun _ => by rw [hf]; rfl)
  rw [hres, herr hx]
  rfl

end C14

section C15

open FloatOps

/-! ## C15: non-finite values -/

/-- C15 (as the code has it): `getMeasurement` succeeds with the measurement
`m` exactly when `strconv.ParseFloat` accepts the value token and returns
`m.Value`, and either `errPos > 0` and it accepts the uncertainty token and
returns `m.SDev`, or `errPos` is not positive and `m.SDev` is `0`; the values are
returned as parsed, finite or not. -/
theorem getMeasurement_ok_iff (parseFloat : String → Option F64) (fs : List String)
    (name : String) (valPos errPos : Int) (m : Measurement F64) :
    getMeasurement parseFloat fs name valPos errPos = some (.ok m) ↔
      column parseFloat fs valPos = some m.Value ∧
      (errPos > 0 → column parseFloat fs errPos = some m.SDev) ∧
      (¬ errPos > 0 → m.SDev = lit 0) := by
  obtain ⟨mv, ms⟩ := m
  unfold getMeasurement column
  cases hi : index fs valPos with
  | none => simp
  | some tok =>
    cases hp : parseFloat tok with
    | none => cases h0 : index fs 0 <;> simp [hp]
    | some value =>
      by_cases hpos : errPos > 0
      · cases hie : index fs errPos with
        | none => simp [hp, hpos]
        | some etok =>
          cases hq : parseFloat etok with
          | none => cases h0 : index fs 0 <;> simp [hp, hpos, hq]
          | some sDev => simp [hp, hpos, hq]
      · simp [hp, hpos]
        intro _
        exact eq_comm

/-- C15 (as stated) fails: on the line `7 0 0 NaN Inf` the flux is read without
error, and the returned measurement has the value `NaN` and the uncertainty
`+Inf`, neither of them finite. -/
theorem getMeasurement_nan_counterexample :
    getMeasurement parseGo (fields nanLine) "flux" 3 4 = some (.ok ⟨F64.nan, F64.pinf⟩) ∧
    ¬ F64.isFinite F64.nan ∧ ¬ F64.isFinite F64.pinf := by
  have hf : fields nanLine = ["7", "0", "0", "NaN", "Inf"] := by decide
  refine ⟨?_, by simp [F64.isFinite], by simp [F64.isFinite]⟩
  rw [hf]
  simp [getMeasurement, index, parseGo]

end C15

section C16

open FloatOps

/-! ## C16: a source on the positive x axis of the lens -/

/-- C16 (as the code has it): in every float64 arithmetic with the comparisons
of IEEE 754 and the facts `SubSelfLaw`, `OneMulLaw` and `AxisLaws` of the
arithmetic on the x axis, for a lens and a source with the same finite `Y`, with
`37.0 < source.X - lens.X < 54838.0` and with finite shear components, the scan
produces exactly one result for the pair; its separation is
`source.X - lens.X`, its bearing is `0`, its shear `EMode.Value` is
`-shear.One.Value` and its shear `BMode.Value` is `shear.Two.Value`. -/
theorem axis_pair {F : Type} [FloatOps F] (isNaN isFinite : F → Prop)
    (laws : CompareLaws F isNaN) (hsub : SubSelfLaw F isFinite) (hone : OneMulLaw F)
    (axis : AxisLaws F isFinite) (lens : Lens F) (source : Source F)
    (hY : source.Y = lens.Y) (hfin : isFinite lens.Y)
    (hlo : lt (lit 37) (source.X - lens.X) = true)
    (hhi : lt (source.X - lens.X) (lit 54838) = true)
    (h1 : isFinite source.Shear.One.Value) (h2 : isFinite source.Shear.Two.Value) :
    ∃ r, scanPair lens source = some r ∧ lensTask [source] lens = [r] ∧
      r.DeltaTh = source.X - lens.X ∧ r.Phi = lit 0 ∧
      r.Shear.EMode.Value = -source.Shear.One.Value ∧
      r.Shear.BMode.Value = source.Shear.Two.Value := by
  have hy : deltaY lens source = lit 0 := by
    unfold deltaY
    rw [hY]
    exact hsub lens.Y hfin
  have hth : deltaTh lens source = source.X - lens.X := by
    unfold deltaTh
    rw [hy]
    exact axis.sqrt_sq _ hlo hhi
  have hq : qualifies lens source := by
    unfold qualifies
    rw [hth]
    exact ⟨hlo, hhi⟩
  obtain ⟨r, hr⟩ := scanPair_of_window isNaN laws lens source hq
  obtain ⟨-, -, hTh, -, -, hPhi, hE, hB, -⟩ := scanPair_fields lens source r hr
  have hphi : r.Phi = lit 0 := by
    rw [hPhi, hy]
    exact axis.atan2_zero _ hlo
  refine ⟨r, hr, by simp [lensTask, hr], by rw [hTh, hth], hphi, ?_, ?_⟩
  · rw [hE, hphi]
    simp only [seVal, axis.cos_zero, axis.sin_zero]
    rw [axis.neg_one_mul, axis.zero_mul _ h2, axis.sub_zero]
  · rw [hB, hphi]
    simp only [sbVal, axis.cos_zero, axis.sin_zero]
    rw [axis.neg_zero_mul _ h1, hone, axis.zero_add]

/-- C16 on the catalogue of the specification, in `F64`: a lens at `(0, 0)` and
a source at `(100, 0)` with shear `(0.1, 0.0)` give one result, with separation
`100`, bearing `0`, `shearE = -0.1` and `shearB = 0.0`. -/
theorem axis_pair_witness :
    ∃ r, scanPair lensOrigin specSource = some r ∧ lensTask [specSource] lensOrigin = [r] ∧
      r.DeltaTh = F64.fin 100 ∧ r.Phi = F64.fin 0 ∧
      r.Shear.EMode.Value = F64.fin (-0.1) ∧ r.Shear.BMode.Value = F64.fin 0 := by
  have hsub : specSource.X - lensOrigin.X = F64.fin 100 := by
    simp [specSource, mkSource, lensOrigin, F64.sub, F64.neg, F64.add]
  obtain ⟨r, hr, hone, hTh, hPhi, hE, hB⟩ :=
    axis_pair (fun x => x = F64.nan) F64.isFinite F64.compareLaws F64.subSelfLaw
      F64.oneMulLaw F64.axisLaws lensOrigin specSource rfl trivial
      (by rw [hsub]; simp [F64.lt]; norm_num) (by rw [hsub]; simp [F64.lt]; norm_num)
      trivial trivial
  refine ⟨r, hr, hone, by rw [hTh, hsub], by simpa using hPhi, ?_, ?_⟩
  · rw [hE]
    simp [specSource, mkSource, F64.neg]
  · rw [hB]
    rfl

/-- C16 (as stated) fails.  The lens at `(0, +Inf)` and the source at
`(100, +Inf)` have equal `Y` and `37.0 < source.X - lens.X = 100 < 54838.0`;
`source.Y - lens.Y` is `NaN`, so the separation is `NaN`, the pair passes the
test of line 114, and the result produced has separation `NaN`, not `100`.  The
origin lens and the source at `(100, 0)` with shear `(0.1, +Inf)` have equal
finite `Y`; the shear `EMode.Value` of their result is `-0.1 - 0*Inf = NaN`,
not `-0.1`. -/
theorem axis_pair_counterexample :
    (sourceInfY.Y = lensInfY.Y ∧
      lt (lit 37) (sourceInfY.X - lensInfY.X) = true ∧
      lt (sourceInfY.X - lensInfY.X) (lit 54838) = true ∧
      ∃ r, scanPair lensInfY sourceInfY = some r ∧ r.DeltaTh = F64.nan ∧
        r.DeltaTh ≠ sourceInfY.X - lensInfY.X) ∧
    (sourceInfShear.Y = lensOrigin.Y ∧
      lt (lit 37) (sourceInfShear.X - lensOrigin.X) = true ∧
      lt (sourceInfShear.X - lensOrigin.X) (lit 54838) = true ∧
      ∃ r, scanPair lensOrigin sourceInfShear = some r ∧ r.Shear.EMode.Value = F64.nan ∧
        r.Shear.EMode.Value ≠ -sourceInfShear.Shear.One.Value) := by
  have hsub : sourceInfY.X - lensInfY.X = F64.fin 100 := by
    simp [sourceInfY, mkSource, lensInfY, F64.sub, F64.neg, F64.add]
  have hth : deltaTh lensInfY sourceInfY = F64.nan := by
    simp [deltaTh, deltaX, deltaY, lensInfY, sourceInfY, mkSource, F64.sub, F64.add, F64.neg,
      F64.mul, F64.sqrt]
  have hsome : (scanPair lensInfY sourceInfY).isSome = true := by
    rw [scanPair_isSome, hth]
    simp [F64.le]
  obtain ⟨r, hr⟩ := Option.isSome_iff_exists.1 hsome
  obtain ⟨-, -, hTh, -⟩ := scanPair_fields lensInfY sourceInfY r hr
  have hsub' : sourceInfShear.X - lensOrigin.X = F64.fin 100 := by
    simp [sourceInfShear, mkSource, lensOrigin, F64.sub, F64.neg, F64.add]
  have hX : sourceInfShear.X = F64.fin (100 * Real.cos 0) := by simp [sourceInfShear, mkSource]
  have hY : sourceInfShear.Y = F64.fin (100 * Real.sin 0) := by simp [sourceInfShear, mkSource]
  have hθ : (0 : ℝ) ∈ Set.Ioc (-Real.pi) Real.pi :=
    ⟨by linarith [Real.pi_pos], Real.pi_pos.le⟩
  obtain ⟨-, hphi⟩ := origin_polar sourceInfShear 100 0 (by norm_num) hθ hX hY
  obtain ⟨r', hr'⟩ := scanPair_of_qualifies lensOrigin sourceInfShear
    (qualifies_polar sourceInfShear 100 0 (by norm_num) (by norm_num) hθ hX hY)
  obtain ⟨-, -, -, -, -, hPhi', hE', -⟩ := scanPair_fields lensOrigin sourceInfShear r' hr'
  rw [hphi] at hPhi'
  have hE'' : r'.Shear.EMode.Value = F64.nan := by
    rw [hE', hPhi']
    simp [seVal, sourceInfShear, mkSource, F64.mul, F64.cos, F64.sin, F64.neg, F64.sub, F64.add,
      F64.signedInf]
  refine ⟨⟨rfl, by rw [hsub]; simp [F64.lt]; norm_num, by rw [hsub]; simp [F64.lt]; norm_num,
    r, hr, by rw [hTh, hth], ?_⟩,
    ⟨rfl, by rw [hsub']; simp [F64.lt]; norm_num, by rw [hsub']; simp [F64.lt]; norm_num,
      r', hr', hE'', ?_⟩⟩
  · rw [hTh, hth, hsub]
    simp
  · rw [hE'']
    simp [sourceInfShear, mkSource, F64.neg]

end C16
section C17

open FloatOps

/-! ## C17: the results of the whole scan -/

/-- C17 (as the code has it): in every float64 arithmetic with the comparisons
of IEEE 754 and in every execution of the scheduler, when every per-lens task
has finished and `main` has not yet closed the channel, the results the
consumer has received from the tasks, printed or held, are as a multiset those
of the pairs `(i, j)` of the lens x source cross product, position by position,
on which `scanPair` produces a result, each once and nothing else; a pair
produces a result exactly when it qualifies or its separation is `NaN`; every
result carries its lens and its source unchanged; there is no result when there
are no lenses or no sources; any two executions give the same multiset; and
there is such an execution. -/
theorem scan_results {F : Type} [FloatOps F] (isNaN : F → Prop) (laws : CompareLaws F isNaN)
    (lenses : List (Lens F)) (sources : List (Source F)) (st : Sched (GalGalData F))
    (h : Execution GalGalData.zero (Sched.initial (scanTasks lenses sources)) st)
    (hdone : ∀ t ∈ st.pending, t = []) (hopen : st.closed = false) :
    ((st.printed ++ st.holding.toList : List (GalGalData F)) : Multiset (GalGalData F)) =
      ((List.product lenses sources).filterMap (fun p => scanPair p.1 p.2) :
        List (GalGalData F)) ∧
    (∀ l s, (scanPair l s).isSome = true ↔ qualifies l s ∨ isNaN (deltaTh l s)) ∧
    (∀ r ∈ st.printed ++ st.holding.toList, ∃ l ∈ lenses, ∃ s ∈ sources,
      scanPair l s = some r ∧ r.Lens = l ∧ r.Source = s) ∧
    (lenses = [] ∨ sources = [] → st.printed = [] ∧ st.holding = none) ∧
    (∀ st', Execution GalGalData.zero (Sched.initial (scanTasks lenses sources)) st' →
      (∀ t ∈ st'.pending, t = []) → st'.closed = false →
      ((st'.printed ++ st'.holding.toList : List (GalGalData F)) : Multiset (GalGalData F)) =
        (st.printed ++ st.holding.toList : List (GalGalData F))) ∧
    (∃ st₀, Execution GalGalData.zero (Sched.initial (scanTasks lenses sources)) st₀ ∧
      (∀ t ∈ st₀.pending, t = []) ∧ st₀.closed = false ∧ st₀.holding = none ∧
      st₀.printed = (scanTasks lenses sources).flatten) := by
  have hperm := h.received_perm hdone hopen
  have hflat := scanTasks_flatten lenses sources
  refine ⟨?_, ?_, ?_, ?_, ?_, ?_⟩
  · rw [← hflat]
    exact Multiset.coe_eq_coe.2 hperm
  · intro l s
    exact scanPair_isSome_iff isNaN laws l s
  · intro r hr
    have hmem : r ∈ (scanTasks lenses sources).flatten := hperm.mem_iff.1 hr
    rw [hflat, List.mem_filterMap] at hmem
    obtain ⟨⟨l, s⟩, hp, hsome⟩ := hmem
    rw [List.pair_mem_product] at hp
    obtain ⟨hL, hS, -⟩ := scanPair_fields l s r hsome
    exact ⟨l, hp.1, s, hp.2, hsome, hL, hS⟩
  · intro hempty
    have hnil : (scanTasks lenses sources).flatten = [] := by
      rw [hflat]
      rcases hempty with rfl | rfl
      · rfl
      · simp [List.product]
    rw [hnil] at hperm
    have hl := List.perm_nil.1 hperm
    rw [List.append_eq_nil] at hl
    refine ⟨hl.1, ?_⟩
    cases hh : st.holding with
    | none => rfl
    | some x => rw [hh] at hl; exact absurd hl.2 (by simp [Option.toList])
  · intro st' h' hdone' hopen'
    exact Multiset.coe_eq_coe.2 ((h'.received_perm hdone' hopen').trans hperm.symm)
  · obtain ⟨pending, hp, hex⟩ :=
      Execution.one_by_one (GalGalData.zero : GalGalData F) (scanTasks lenses sources) [] []
    exact ⟨_, by simpa [Sched.initial] using hex, by simpa using hp, rfl, rfl, by simp⟩

/-- C17 (as the code has it) in `F64`, on the origin lens and the source at
`(30, 40)`: there is an execution in which every task has finished, the channel
is open and the consumer has printed the result of that pair, once and nothing
else. -/
theorem scan_results_witness :
    ∃ st r,
      Execution GalGalData.zero (Sched.initial (scanTasks [lensOrigin] [source3040])) st ∧
      (∀ t ∈ st.pending, t = []) ∧ st.closed = false ∧
      scanPair lensOrigin source3040 = some r ∧ st.printed = [r] ∧ st.holding = none ∧
      (∀ r' ∈ st.printed ++ st.holding.toList,
        r'.Lens = lensOrigin ∧ r'.Source = source3040) := by
  obtain ⟨r, hr⟩ := scanPair_of_qualifies lensOrigin source3040 qualifies_source3040
  obtain ⟨pending, hp, hex⟩ :=
    Execution.one_by_one (GalGalData.zero : GalGalData F64)
      (scanTasks [lensOrigin] [source3040]) [] []
  have hex' : Execution GalGalData.zero (Sched.initial (scanTasks [lensOrigin] [source3040]))
      { pending := pending, holding := none,
        printed := (scanTasks [lensOrigin] [source3040]).flatten, closed := false,
        exited := false } := by
    simpa [Sched.initial] using hex
  obtain ⟨-, -, hcarry, -⟩ :=
    scan_results (fun x => x = F64.nan) F64.compareLaws [lensOrigin] [source3040] _ hex' hp rfl
  refine ⟨_, r, hex', hp, rfl, hr, by simp [scanTasks, lensTask, hr], rfl, ?_⟩
  intro r' hr'
  obtain ⟨l, hl, s, hs, -, hL, hS⟩ := hcarry r' hr'
  simp only [List.mem_singleton] at hl hs
  rw [hL, hS, hl, hs]
  exact ⟨rfl, rfl⟩

/-- C17 (as stated) fails: for the origin lens and the source whose x position
is `NaN` no pair qualifies, and yet there is an execution in which the consumer
receives and prints a result of the scan before the channel is closed. -/
theorem scan_results_counterexample :
    ¬ qualifies lensOrigin sourceNaN ∧
    ∃ st r, Execution GalGalData.zero (Sched.initial (scanTasks [lensOrigin] [sourceNaN])) st ∧
      st.closed = false ∧ scanPair lensOrigin sourceNaN = some r ∧ st.printed = [r] := by
  have hth : deltaTh lensOrigin sourceNaN = F64.nan := by
    simp [deltaTh, deltaX, deltaY, lensOrigin, sourceNaN, mkSource, F64.sub, F64.add, F64.neg,
      F64.mul, F64.sqrt]
  have hsome : (scanPair lensOrigin sourceNaN).isSome = true := by
    rw [scanPair_isSome, hth]
    simp [F64.le]
  obtain ⟨r, hr⟩ := Option.isSome_iff_exists.1 hsome
  constructor
  · unfold qualifies
    rw [hth]
    simp [F64.lt]
  · obtain ⟨pending, -, hex⟩ :=
      Execution.one_by_one (GalGalData.zero : GalGalData F64)
        (scanTasks [lensOrigin] [sourceNaN]) [] []
    refine ⟨_, r, by simpa [Sched.initial] using hex, rfl, hr, ?_⟩
    simp [scanTasks, lensTask, hr]

end C17
section C18

open FloatOps

/-! ## C18: the consumer is not waited for -/

/-- C18 fails on the code: for the catalogue of the specification (one lens,
one qualifying source, one result `r`) there is an execution in which the
consumer has received `r`, `main` returns from `wg.Wait()` and the process exits
with nothing printed; there is one in which `r` is printed and then, after the
deferred `close`, the consumer receives from the closed channel and prints a
zero-valued record; and there is one in which exactly `r` is printed.  With no
lens at all there is an execution that prints a zero-valued record.  What does
hold in every execution: the channel is closed, and the process exits, only
when no producer has anything left to send. -/
theorem scheduler_executions :
    ∃ r, scanPair lensOrigin specSource = some r ∧
      scanTasks [lensOrigin] [specSource] = [[r]] ∧
      (∃ final,
        Execution GalGalData.zero (Sched.initial (scanTasks [lensOrigin] [specSource])) final ∧
        final.exited = true ∧ final.printed = []) ∧
      (∃ final,
        Execution GalGalData.zero (Sched.initial (scanTasks [lensOrigin] [specSource])) final ∧
        final.exited = true ∧ final.printed = [r, GalGalData.zero]) ∧
      (∃ final,
        Execution GalGalData.zero (Sched.initial (scanTasks [lensOrigin] [specSource])) final ∧
        final.exited = true ∧ final.printed = [r]) ∧
      (∃ final, Execution (GalGalData.zero : GalGalData F64)
          (Sched.initial (scanTasks ([] : List (Lens F64)) [specSource])) final ∧
        final.exited = true ∧ final.printed = [GalGalData.zero]) ∧
      (∀ (tasks : List (List (GalGalData F64))) (st : Sched (GalGalData F64)),
        Execution GalGalData.zero (Sched.initial tasks) st →
        (st.closed = true ∨ st.exited = true) → ∀ u ∈ st.pending, u = []) := by
  have hX : specSource.X = F64.fin (100 * Real.cos 0) := by simp [specSource, mkSource]
  have hY : specSource.Y = F64.fin (100 * Real.sin 0) := by simp [specSource, mkSource]
  have hθ : (0 : ℝ) ∈ Set.Ioc (-Real.pi) Real.pi :=
    ⟨by linarith [Real.pi_pos], Real.pi_pos.le⟩
  obtain ⟨r, hr⟩ := scanPair_of_qualifies lensOrigin specSource
    (qualifies_polar specSource 100 0 (by norm_num) (by norm_num) hθ hX hY)
  have hall : ∀ t ∈ [([] : List (GalGalData F64))], t = [] := by simp
  have hnone : ∀ t ∈ ([] : List (List (GalGalData F64))), t = [] := by simp
  have htasks : scanTasks [lensOrigin] [specSource] = [[r]] := by
    simp [scanTasks, lensTask, hr]
  rw [htasks]
  refine ⟨r, hr, rfl, ?_, ?_, ?_, ?_, ?_⟩
  · refine ⟨{ pending := [[]], holding := some r, printed := [], closed := true,
               exited := true },
      ?_, rfl, rfl⟩
    exact ((Relation.ReflTransGen.single (Step.send [] [] r [] [])).tail
      (Step.close _ _ _ hall)).tail (Step.exit _ _ _)
  · refine ⟨{ pending := [[]], holding := none, printed := [r, GalGalData.zero], closed := true,
               exited := true },
      ?_, rfl, rfl⟩
    exact (((((Relation.ReflTransGen.single (Step.send [] [] r [] [])).tail
      (Step.print _ _ _ _)).tail (Step.close _ _ _ hall)).tail
      (Step.recvClosed _ _)).tail (Step.print _ _ _ _)).tail (Step.exit _ _ _)
  · refine ⟨{ pending := [[]], holding := none, printed := [r], closed := true, exited := true },
      ?_, rfl, rfl⟩
    exact (((Relation.ReflTransGen.single (Step.send [] [] r [] [])).tail
      (Step.print _ _ _ _)).tail (Step.close _ _ _ hall)).tail (Step.exit _ _ _)
  · refine ⟨{ pending := [], holding := none, printed := [GalGalData.zero], closed := true,
               exited := true },
      ?_, rfl, rfl⟩
    exact (((Relation.ReflTransGen.single (Step.close [] none [] hnone)).tail
      (Step.recvClosed _ _)).tail (Step.print _ _ _ _)).tail (Step.exit _ _ _)
  · intro tasks st hex hce
    rcases hce with hc | he
    · exact hex.closed_pending hc
    · exact hex.closed_pending (hex.exited_closed he)

end C18

section C20

open FloatOps

/-! ## C20: the invariant of a result -/

/-- C20 (as the code has it): in every float64 arithmetic with the comparisons
of IEEE 754 and the facts `SubSelfLaw` and `ZeroSeparationLaw`, every result
produced by the scan has `DeltaX = source.X - lens.X`,
`DeltaY = source.Y - lens.Y` and
`DeltaTh = Sqrt(DeltaX*DeltaX + DeltaY*DeltaY)` as line 113 computes it, with
`37.0 < DeltaTh < 54838.0` or `DeltaTh` a `NaN`; `(DeltaX, DeltaY)` is not
`(0, 0)`, so the bearing `Phi = atan2(DeltaY, DeltaX)` is never evaluated at the
origin; and a source whose finite position is that of its lens produces no
result. -/
theorem result_invariant {F : Type} [FloatOps F] (isNaN isFinite : F → Prop)
    (laws : CompareLaws F isNaN) (hsub : SubSelfLaw F isFinite) (hzero : ZeroSeparationLaw F)
    (lens : Lens F) (source : Source F) (r : GalGalData F)
    (h : scanPair lens source = some r) :
    r.DeltaX = source.X - lens.X ∧ r.DeltaY = source.Y - lens.Y ∧
    r.DeltaTh = sqrt (r.DeltaX * r.DeltaX + r.DeltaY * r.DeltaY) ∧
    ((lt (lit 37) r.DeltaTh = true ∧ lt r.DeltaTh (lit 54838) = true) ∨ isNaN r.DeltaTh) ∧
    ¬ (r.DeltaX = lit 0 ∧ r.DeltaY = lit 0) ∧
    r.Phi = atan2 r.DeltaY r.DeltaX ∧
    (∀ (l : Lens F) (s : Source F), s.X = l.X → s.Y = l.Y → isFinite l.X → isFinite l.Y →
      scanPair l s = none) := by
  obtain ⟨-, -, hTh, hX, hY, hPhi, -⟩ := scanPair_fields lens source r h
  have hsome : (scanPair lens source).isSome = true := by rw [h]; rfl
  have hwin := (scanPair_isSome_iff isNaN laws lens source).1 hsome
  have hnone : ∀ (l : Lens F) (s : Source F), deltaX l s = lit 0 → deltaY l s = lit 0 →
      scanPair l s = none := by
    intro l s h0x h0y
    have hd : le (deltaTh l s) (lit 37) = true := by
      unfold deltaTh
      rw [h0x, h0y]
      exact hzero
    rw [← Option.not_isSome_iff_eq_none, scanPair_isSome, hd]
    simp
  refine ⟨hX, hY, ?_, ?_, ?_, by rw [hPhi, hX, hY], ?_⟩
  · rw [hTh, hX, hY]
    rfl
  · rw [hTh]
    exact hwin
  · rintro ⟨h0x, h0y⟩
    rw [hX] at h0x
    rw [hY] at h0y
    rw [hnone lens source h0x h0y] at h
    exact absurd h (by simp)
  · intro l s hx hy hfx hfy
    apply hnone l s
    · unfold deltaX
      rw [hx]
      exact hsub l.X hfx
    · unfold deltaY
      rw [hy]
      exact hsub l.Y hfy

/-- C20 (as the code has it) in `F64`, at the origin lens and the source at
`(30, 40)`: the result has a separation inside the window and a displacement
that is not `(0, 0)`; and the source at `(100, 0)` produces no result with a
lens at `(100, 0)`. -/
theorem result_invariant_witness :
    ∃ r, scanPair lensOrigin source3040 = some r ∧
      lt (lit 37) r.DeltaTh = true ∧ lt r.DeltaTh (lit 54838) = true ∧
      ¬ (r.DeltaX = lit 0 ∧ r.DeltaY = lit 0) ∧
      scanPair { ID := 1, X := F64.fin 100, Y := F64.fin 0 } sourceAxis = none := by
  obtain ⟨r, hr⟩ := scanPair_of_qualifies lensOrigin source3040 qualifies_source3040
  obtain ⟨-, -, -, -, hne, -, hsame⟩ :=
    result_invariant (fun x => x = F64.nan) F64.isFinite F64.compareLaws F64.subSelfLaw
      F64.zeroSeparationLaw lensOrigin source3040 r hr
  obtain ⟨-, -, hTh, -⟩ := scanPair_fields lensOrigin source3040 r hr
  have hq := qualifies_source3040
  unfold qualifies at hq
  rw [← hTh] at hq
  exact ⟨r, hr, hq.1, hq.2, hne, hsame _ sourceAxis rfl rfl trivial trivial⟩

/-- C20 (as stated) fails: the origin lens and the source whose x position is
`NaN` produce a result whose separation is `NaN`, so `37.0 < DeltaTh` is false;
and the source at `(0, +Inf)`, exactly the position of the lens at `(0, +Inf)`,
produces a result. -/
theorem result_invariant_counterexample :
    (∃ r, scanPair lensOrigin sourceNaN = some r ∧ ¬ (lt (lit 37) r.DeltaTh = true)) ∧
    sourceAtLensInfY.X = lensInfY.X ∧ sourceAtLensInfY.Y = lensInfY.Y ∧
    (scanPair lensInfY sourceAtLensInfY).isSome = true := by
  have h1 : deltaTh lensOrigin sourceNaN = F64.nan := by
    simp [deltaTh, deltaX, deltaY, lensOrigin, sourceNaN, mkSource, F64.sub, F64.add, F64.neg,
      F64.mul, F64.sqrt]
  have h2 : deltaTh lensInfY sourceAtLensInfY = F64.nan := by
    simp [deltaTh, deltaX, deltaY, lensInfY, sourceAtLensInfY, mkSource, F64.sub, F64.add,
      F64.neg, F64.mul, F64.sqrt]
  have hsome : (scanPair lensOrigin sourceNaN).isSome = true := by
    rw [scanPair_isSome, h1]
    simp [F64.le]
  obtain ⟨r, hr⟩ := Option.isSome_iff_exists.1 hsome
  obtain ⟨-, -, hTh, -⟩ := scanPair_fields lensOrigin sourceNaN r hr
  refine ⟨⟨r, hr, ?_⟩, rfl, rfl, ?_⟩
  · rw [hTh, h1]
    simp [F64.lt]
  · rw [scanPair_isSome, h2]
    simp [F64.le]

end C20

end Gogal
